import Mathlib

/-!
Shallow embedding of `update_kobotoolbox/pipeline.py` from the repository
BLSQ/openhexa-pipelines-praps, together with proofs about the embedded
functions.

Modelling conventions:
- Python/JSON values are modelled by `Value`; Python dicts by association
  lists in insertion order (`Assoc`); code that can raise is modelled with
  `Option`/`Except` results (`none`/`.error` marks the raising paths).
- pandas dataframes are modelled column-major by `DataFrame`: an ordered
  list of labelled columns, which is how pandas itself organises a frame.
- Python strings are modelled by `String`, with the string algorithms of
  the source (`str.replace`, `str.split`, `str.startswith`, substring
  tests) re-implemented over `List Char` so that everything computes by
  kernel reduction.
-/

namespace Kobo

/-- Python/JSON values as they appear in KoboToolbox API payloads.
Numbers are modelled by `Rat` (all numeric literals of interest are exact
decimals, so no floating-point behaviour is modelled). -/
inductive Value where
  | null
  | bool (b : Bool)
  | num (q : Rat)
  | str (s : String)
  | list (vs : List Value)
  | obj (fields : List (String × Value))

/-- Python hashability: lists and dicts cannot be used as dict keys
(`TypeError: unhashable type`); scalars can. -/
def Value.isHashable : Value → Bool
  | .list _ => false
  | .obj _ => false
  | _ => true

/-- Python `==` as used by the source: dict-key comparison and the
`asset.get("asset_type") == "survey"` test.  Both only ever compare scalar
(hashable) values in the source, so container equality is not recursed
into (a container compared here yields `false`; as a dict key it would
have raised before the comparison).  Python cross-type numeric equalities
such as `True == 1` are not modelled; no claim depends on them. -/
def Value.eqTest : Value → Value → Bool
  | .null, .null => true
  | .bool a, .bool b => a == b
  | .num a, .num b => a == b
  | .str a, .str b => a == b
  | _, _ => false

/-- Python truthiness for the modelled values: `None`, `False`, zero,
empty string, empty list and empty dict are falsy, everything else truthy
(source lines 218 and the `if not f.name` test at line 166). -/
def Value.truthy : Value → Bool
  | .null => false
  | .bool b => b
  | .num q => !(q == 0)
  | .str s => !(s == "")
  | .list vs => !vs.isEmpty
  | .obj fs => !fs.isEmpty

/-- A Python dict with string keys, in insertion order. -/
abbrev Assoc := List (String × Value)

/-- Dict lookup (`d[k]` / `d.get(k)`): first binding of the key. -/
def lookupA (a : Assoc) (k : String) : Option Value :=
  (a.find? (fun p => p.1 == k)).map Prod.snd

/-- Python `k in d`. -/
def hasKeyA (a : Assoc) (k : String) : Bool :=
  (lookupA a k).isSome

/-! ### Character-list string algorithms

The source relies on `str.replace`, `str.split`, `str.startswith` and the
`in` substring test.  They are re-implemented here over `List Char`,
following Python semantics (left-to-right, non-overlapping replacement
that does not rescan the replacement text). -/

/-- Is `p` a prefix of `s`? -/
def prefixOfChars : List Char → List Char → Bool
  | [], _ => true
  | _ :: _, [] => false
  | a :: as, b :: bs => a == b && prefixOfChars as bs

/-- Does `sub` occur as a contiguous substring of `s` (Python `sub in s`)? -/
def hasSubChars (sub : List Char) : List Char → Bool
  | [] => sub.isEmpty
  | c :: cs => prefixOfChars sub (c :: cs) || hasSubChars sub cs

/-- Python `sub in s` on strings. -/
def strContains (s sub : String) : Bool :=
  hasSubChars sub.data s.data

/-- Python `s.startswith(p)`. -/
def strStartsWith (s p : String) : Bool :=
  prefixOfChars p.data s.data

/-- Python `s.split(sep)` for a one-character separator, on char lists.
Always returns a non-empty list of segments. -/
def splitOnC (sep : Char) : List Char → List (List Char)
  | [] => [[]]
  | a :: as =>
    match splitOnC sep as with
    | [] => [[]]
    | g :: gs => if a == sep then [] :: g :: gs else (a :: g) :: gs

/-- Fuel-driven core of Python `s.replace(pat, repl)`: at each position,
if `pat` matches, emit `repl` and continue after the match; otherwise
keep the character.  The fuel is only a structural-recursion device; it
is always called with fuel at least the length of the string. -/
def replaceAux (pat repl : List Char) : Nat → List Char → List Char
  | _, [] => []
  | 0, s => s
  | fuel + 1, c :: cs =>
    if prefixOfChars pat (c :: cs) then
      repl ++ replaceAux pat repl fuel (cs.drop (pat.length - 1))
    else
      c :: replaceAux pat repl fuel cs

/-- Python `s.replace(pat, repl)` on char lists (for a non-empty pattern). -/
def replaceRun (pat repl s : List Char) : List Char :=
  replaceAux pat repl s.length s

/-- Python `s.replace(pat, repl)` on strings.  The source only ever calls
it with non-empty patterns; the empty-pattern corner of Python (which
interleaves the replacement everywhere) is not modelled. -/
def replaceStr (s pat repl : String) : String :=
  if pat = "" then s else String.mk (replaceRun pat.data repl.data s.data)

/-! ### The `Field` class (source lines 31-76) -/

/-- A survey question: `Field.__init__` merely stores the raw metadata
value (any value is accepted; errors surface later, on attribute access). -/
structure Field where
  meta : Value

/-- `Field.parse_condition` (source lines 65-76): the four global string
replacements, in source order.  Braces and apostrophes inside the string
literals are written with their escape codes. -/
def Field.parse_condition (expression : String) : String :=
  let e1 := replaceStr expression "selected($\x7b" "(record.get(\x27"
  let e2 := replaceStr e1 "$\x7b" "record.get(\x27"
  let e3 := replaceStr e2 "\x7d" "\x27)"
  let e4 := replaceStr e3 ", " " == "
  e4

/-- `Field.label` (source lines 44-48) applied to a field whose metadata
is the dict `a`: `meta["label"][0]` when the key is present (indexing a
list takes its head, indexing a string takes its first character, and
anything else raises, modelled by `none`), Python `None` when absent. -/
def labelOfMeta (a : Assoc) : Option Value :=
  match lookupA a "label" with
  | Option.none => some Value.null
  | some (Value.list (x :: _)) => some x
  | some (Value.str s) =>
    match s.data with
    | [] => Option.none
    | c :: _ => some (Value.str (String.mk [c]))
  | some _ => Option.none

/-! ### A column-major dataframe model -/

/-- A pandas dataframe: an ordered list of labelled columns (pandas is
itself a mapping from column labels to column arrays; duplicate labels
are allowed).  Cell values are `Value`; a missing cell is `Value.null`
(standing for NaN). -/
structure DataFrame where
  cols : List (String × List Value)

/-- The column labels, in order. -/
def DataFrame.columns (df : DataFrame) : List String :=
  df.cols.map Prod.fst

/-- `df[k]` for a column label `k`: the first matching column (the source
only reads single columns through unique labels). -/
def DataFrame.col? (df : DataFrame) (k : String) : Option (List Value) :=
  (df.cols.find? (fun c => c.1 == k)).map Prod.snd

/-- Number of rows (length of the first column; 0 for an empty frame). -/
def DataFrame.nrows (df : DataFrame) : Nat :=
  match df.cols with
  | [] => 0
  | c :: _ => c.2.length

/-- `df[key]` for a list `key` of labels (pandas `__getitem__` with a
list): each requested label contributes every matching column, in frame
order; a label with no match raises a `KeyError` (modelled by `none`). -/
def selectColumns (df : DataFrame) (key : List String) : Option DataFrame :=
  if (key.map (fun k => df.cols.filter (fun c => c.1 == k))).any List.isEmpty
  then Option.none
  else some { cols := (key.map (fun k => df.cols.filter (fun c => c.1 == k))).flatten }

/-- `df[name] = vals`: replace every column with that label, or append a
new column at the end when the label is absent (pandas `__setitem__`). -/
def assignColumn (df : DataFrame) (name : String) (vals : List Value) :
    DataFrame :=
  if df.columns.contains name then
    { cols := df.cols.map (fun c => if c.1 == name then (c.1, vals) else c) }
  else
    { cols := df.cols ++ [(name, vals)] }

/-- `df.drop(columns=names)`: remove every column whose label is listed. -/
def dropColumns (df : DataFrame) (names : List String) : DataFrame :=
  { cols := df.cols.filter (fun c => !(names.contains c.1)) }

/-! ### `pd.DataFrame(records)` for a list of dicts -/

/-- Keep the first occurrence of each string, dropping later duplicates;
`seen` accumulates the strings already emitted. -/
def dedupFirst (seen : List String) : List String → List String
  | [] => []
  | k :: ks =>
    if seen.contains k then dedupFirst seen ks
    else k :: dedupFirst (k :: seen) ks

/-- Column labels of `pd.DataFrame(records)`: the record keys in order of
first appearance. -/
def collectKeys (recs : List Assoc) : List String :=
  dedupFirst [] (recs.flatMap (fun r => r.map Prod.fst))

/-- `pd.DataFrame(records)` for a list of dicts: one column per key (in
first-appearance order), one row per record, missing cells NaN. -/
def mkFromRecords (recs : List Assoc) : DataFrame :=
  { cols := (collectKeys recs).map
      (fun k => (k, recs.map (fun r => (lookupA r k).getD Value.null))) }

/-! ### `get_fields_metadata` (source lines 161-172) -/

/-- The record-building loop of `get_fields_metadata`: skip a field whose
name is falsy (`if not f.name`) or starts with `"group"`, otherwise emit
the dict `{"name": .., "label": .., "type": ..}`.  `f.name` is
`meta.get("name", "")`, so a non-dict field metadata raises
(`AttributeError`), and a truthy non-string name raises at `startswith`;
both raising paths are modelled by `none`. -/
def collectRecords : List Field → Option (List Assoc)
  | [] => some []
  | f :: fs =>
    match f.meta with
    | Value.obj a =>
      if ((lookupA a "name").getD (Value.str "")).truthy = false then
        collectRecords fs
      else
        match (lookupA a "name").getD (Value.str "") with
        | Value.str s =>
          if strStartsWith s "group" then collectRecords fs
          else
            match labelOfMeta a, collectRecords fs with
            | some l, some rest =>
              some ([("name", Value.str s), ("label", l),
                     ("type", (lookupA a "type").getD Value.null)] :: rest)
            | _, _ => Option.none
        | _ => Option.none
    | _ => Option.none

/-- `get_fields_metadata` (source lines 161-172), applied to the fields of
the fetched survey: build the records then `pd.DataFrame(records)`. -/
def get_fields_metadata (fields : List Field) : Option DataFrame :=
  (collectRecords fields).map mkFromRecords

/-- Specification-side description of one retained field: the name of a
field that survives both filters of `get_fields_metadata` (dict metadata,
string-valued non-empty name not starting with `"group"`). -/
def retainedName (f : Field) : Option String :=
  match f.meta with
  | Value.obj a =>
    match (lookupA a "name").getD (Value.str "") with
    | Value.str s =>
      if s = "" || strStartsWith s "group" then Option.none else some s
    | _ => Option.none
  | _ => Option.none

/-- Specification-side description of the record emitted for a retained
field (its label read with `Value.null` for the raising corner, which is
excluded whenever `collectRecords` succeeds). -/
def recordSpec (f : Field) : Option Assoc :=
  (retainedName f).map (fun s =>
    match f.meta with
    | Value.obj a =>
      [("name", Value.str s), ("label", (labelOfMeta a).getD Value.null),
       ("type", (lookupA a "type").getD Value.null)]
    | _ => [])

/-! ### `get_survey_data` (source lines 175-211) -/

/-- `column.split("/")[-1]` (source line 186). -/
def simplifyColumn (c : String) : String :=
  String.mk ((splitOnC (Char.ofNat 47) c.data).getLastD c.data)

/-- The label a raw column carries after the rename of lines 181-191: a
column containing the substring `"group"` is renamed to its last path
segment; any other column keeps its label (the rename dict only holds the
group columns). -/
def renameCol (c : String) : String :=
  if strContains c "group" then simplifyColumn c else c

/-- The rename applied to a whole label list. -/
def applyRename (cols : List String) : List String :=
  cols.map renameCol

/-- `df.rename(columns=rename)` of line 191 on the modelled frame. -/
def koboRename (df : DataFrame) : DataFrame :=
  { cols := df.cols.map (fun c => (renameCol c.1, c.2)) }

/-- The simplified names collected in the `columns` list (lines 184-188):
one entry per raw column containing `"group"`, in frame order. -/
def groupSimplified (cols : List String) : List String :=
  (cols.filter (fun c => strContains c "group")).map simplifyColumn

/-- The full selection list of line 190: the simplified group-column
names followed by the three fixed system columns. -/
def selectionKey (cols : List String) : List String :=
  groupSimplified cols ++ ["_status", "_geolocation", "_attachments"]

/-- Lines 181-192 of `get_survey_data`: build the rename and selection
list, rename, then select. -/
def koboSelect (raw : DataFrame) : Option DataFrame :=
  selectColumns (koboRename raw) (selectionKey raw.columns)

/-- `_lat` (source lines 194-198): the first element of a two-element
list, otherwise `None`. -/
def latOf : Value → Value
  | Value.list [a, _] => a
  | _ => Value.null

/-- `_lon` (source lines 200-204): the second element of a two-element
list, otherwise `None`. -/
def lonOf : Value → Value
  | Value.list [_, b] => b
  | _ => Value.null

/-- Lines 194-209 of `get_survey_data`, after the selection: derive
`LATITUDE`/`LONGITUDE` by applying `_lat`/`_lon` to the `_geolocation`
column, then drop `_geolocation` and `_attachments`. -/
def geoStage (df1 : DataFrame) : Option DataFrame :=
  match df1.col? "_geolocation" with
  | Option.none => Option.none
  | some geo =>
    some (dropColumns
      (assignColumn (assignColumn df1 "LATITUDE" (geo.map latOf))
        "LONGITUDE" (geo.map lonOf))
      ["_geolocation", "_attachments"])

/-- `get_survey_data` (source lines 175-211) as a transformation of the
raw response frame `pd.DataFrame(data)`: rename and select the columns,
then the geolocation stage. -/
def get_survey_data_df (raw : DataFrame) : Option DataFrame :=
  match koboSelect raw with
  | Option.none => Option.none
  | some df1 => geoStage df1

/-- Specification-side description of the frame `koboSelect` produces on
collision-free input: one column per selection-key label, carrying that
label's column of the renamed frame. -/
def selectedFrame (raw : DataFrame) : DataFrame :=
  { cols := (selectionKey raw.columns).map
      (fun k => (k, ((koboRename raw).col? k).getD [])) }

/-! ### `get_survey_geodata` (source lines 214-224) -/

/-- A geodataframe: the input frame, a geometry per row (a point is the
pair `(x, y)` of its coordinates, `none` is a null geometry), and a CRS. -/
structure GeoDataFrame where
  df : DataFrame
  geometry : List (Option (Value × Value))
  crs : String

/-- The row loop of lines 216-221: a point `Point(row.LONGITUDE,
row.LATITUDE)` when both coordinates are truthy, else a null geometry. -/
def pointGeoms (lats lons : List Value) : List (Option (Value × Value)) :=
  List.zipWith
    (fun la lo => if la.truthy && lo.truthy then some (lo, la) else Option.none)
    lats lons

/-- `get_survey_geodata` (source lines 214-224); reading a missing
`LATITUDE`/`LONGITUDE` attribute off a row raises, modelled by `none`. -/
def get_survey_geodata (df : DataFrame) : Option GeoDataFrame :=
  match df.col? "LATITUDE", df.col? "LONGITUDE" with
  | some lats, some lons =>
    some { df := df, geometry := pointGeoms lats lons, crs := "EPSG:4326" }
  | _, _ => Option.none

/-! ### The anonymization step of `update_geonode` (source lines 290-292) -/

/-- Lines 290-292: keep exactly the columns whose name does not start
with `"ID"` (case-sensitive), via `data[columns]`. -/
def anonymizeColumns (df : DataFrame) : Option DataFrame :=
  selectColumns df (df.columns.filter (fun c => !(strStartsWith c "ID")))

/-! ### The `Survey` class (source lines 79-121) -/

/-- The choice lists: a Python dict from `list_name` value to the list of
choice records, in insertion order. -/
abbrev ChoiceLists := List (Value × List Assoc)

/-- Python `ln in choice_lists`. -/
def containsKeyV (m : ChoiceLists) (ln : Value) : Bool :=
  m.any (fun g => Value.eqTest g.1 ln)

/-- One iteration of the `parse_choices` loop (source lines 112-117):
skip a record without `"list_name"`, otherwise append it to its list
(creating the list first when the key is new).  An unhashable
`list_name` value raises a `TypeError` at the `in` test, modelled by
`none`. -/
def addChoice (m : ChoiceLists) (c : Assoc) : Option ChoiceLists :=
  match lookupA c "list_name" with
  | Option.none => some m
  | some ln =>
    if ln.isHashable then
      some (if containsKeyV m ln then
              m.map (fun g => if Value.eqTest g.1 ln then (g.1, g.2 ++ [c]) else g)
            else m ++ [(ln, [c])])
    else Option.none

/-- The `parse_choices` loop over the raw choice values; a non-dict
element raises at `"list_name" in choice`, modelled by `none`. -/
def choicesFold (m : ChoiceLists) : List Value → Option ChoiceLists
  | [] => some m
  | Value.obj c :: rest =>
    match addChoice m c with
    | some m2 => choicesFold m2 rest
    | Option.none => Option.none
  | _ :: _ => Option.none

/-- `Survey.parse_choices` (source lines 108-118) on the survey content:
Python `None` (the outer `some Option.none`) when `"choices"` is absent,
otherwise the grouped dict; iterating a non-list raises. -/
def parse_choicesOf (content : Assoc) : Option (Option ChoiceLists) :=
  match lookupA content "choices" with
  | Option.none => some Option.none
  | some (Value.list cs) => (choicesFold [] cs).map some
  | some _ => Option.none

/-- `Survey.parse_fields` (source lines 105-106): wrap each element of
`content["survey"]` in a `Field` (any element value is accepted); a
missing key or a non-list value raises, modelled by `none`. -/
def parse_fieldsOf (content : Assoc) : Option (List Field) :=
  match lookupA content "survey" with
  | some (Value.list fs) => some (fs.map Field.mk)
  | _ => Option.none

/-- A constructed `Survey` object: the raw metadata plus the `fields` and
`choices` attributes, each `Option.none` when the attribute was never set
by `__init__`.  The inner option of `choices` is the Python `None` that
`parse_choices` may return. -/
structure Survey where
  meta : Assoc
  fields : Option (List Field)
  choices : Option (Option ChoiceLists)

/-- `Survey.__init__` (source lines 80-84): set `fields` and `choices`
only when the raw metadata has a `"content"` key; a raising
`parse_fields`/`parse_choices` aborts construction (`none`). -/
def Survey.make (meta : Assoc) : Option Survey :=
  match lookupA meta "content" with
  | Option.none => some { meta := meta, fields := Option.none, choices := Option.none }
  | some (Value.obj content) =>
    match parse_fieldsOf content, parse_choicesOf content with
    | some fs, some cl =>
      some { meta := meta, fields := some fs, choices := some cl }
    | _, _ => Option.none
  | some _ => Option.none

/-- First group of `m` whose key equals `ln` (dict lookup on the result
of `parse_choices`). -/
def getGroup (m : ChoiceLists) (ln : Value) : Option (List Assoc) :=
  (m.find? (fun g => Value.eqTest g.1 ln)).map Prod.snd

/-- Dict lookup with the empty list for a missing key. -/
def getGroupD (m : ChoiceLists) (ln : Value) : List Assoc :=
  (getGroup m ln).getD []

/-- Specification-side: what one choice record contributes to the group
of `q` — itself when its `list_name` equals `q`, nothing otherwise. -/
def headContribution (a : Assoc) (q : Value) : List Assoc :=
  match lookupA a "list_name" with
  | some k => if Value.eqTest k q then [a] else []
  | Option.none => []

/-- Specification-side description of one choice group: the dict records
of `cs`, in order, whose `list_name` equals `q`. -/
def specFilter (q : Value) : List Value → List Assoc
  | [] => []
  | Value.obj a :: rest => headContribution a q ++ specFilter q rest
  | _ :: rest => specFilter q rest

/-! ### The `Api` class (source lines 124-158)

The HTTP layer is modelled by passing each call the body (and status)
that the server would answer with; what the source does with the session
and the response is embedded faithfully.  None of the data calls consults
`check_authentication` or the session headers. -/

/-- The errors a modelled API call can surface. -/
inductive ApiError where
  | authenticationError
  | httpError (status : Nat)
  | dataError
  deriving DecidableEq

/-- A `requests.Session`: its header dict. -/
structure Session where
  headers : List (String × String)

/-- A fresh session as built by `Api.__init__`: no `Authorization`
header. -/
def newSession : Session := { headers := [] }

/-- `self.session.headers[k] = v`: replace an existing header, else
append. -/
def setHeader (hs : List (String × String)) (k v : String) :
    List (String × String) :=
  if hs.any (fun h => h.1 == k) then
    hs.map (fun h => if h.1 == k then (k, v) else h)
  else hs ++ [(k, v)]

/-- `Api.authenticate` (source lines 133-134). -/
def authenticate (s : Session) (token : String) : Session :=
  { headers := setHeader s.headers "Authorization" ("Token " ++ token) }

/-- `Api.check_authentication` (source lines 136-138). -/
def check_authentication (s : Session) : Except ApiError Unit :=
  if (s.headers.find? (fun h => h.1 == "Authorization")).isSome then
    Except.ok ()
  else Except.error ApiError.authenticationError

/-- The asset loop of `list_surveys` (source lines 145-147): keep assets
whose `asset_type` equals `"survey"`, reduced to `{uid, name}`; iterating
a non-dict asset raises at `.get`, modelled by `none`. -/
def surveysFromAssets : List Value → Option (List Assoc)
  | [] => some []
  | Value.obj a :: rest =>
    (surveysFromAssets rest).map (fun acc =>
      if Value.eqTest ((lookupA a "asset_type").getD Value.null)
          (Value.str "survey") then
        [("uid", (lookupA a "uid").getD Value.null),
         ("name", (lookupA a "name").getD Value.null)] :: acc
      else acc)
  | _ :: _ => Option.none

/-- `Api.list_surveys` (source lines 140-148): parse
`r.json()["results"]` and filter the survey assets.  The session is
taken but never checked for authentication, exactly as in the source. -/
def list_surveys (_s : Session) (body : Value) :
    Except ApiError (List Assoc) :=
  match body with
  | Value.obj r =>
    match lookupA r "results" with
    | some (Value.list assets) =>
      match surveysFromAssets assets with
      | some out => Except.ok out
      | Option.none => Except.error ApiError.dataError
    | some _ => Except.error ApiError.dataError
    | Option.none => Except.error ApiError.dataError
  | _ => Except.error ApiError.dataError

/-- `Api.get_survey` (source lines 150-154): `raise_for_status`, then
wrap the JSON body in a `Survey`.  No authentication check either. -/
def get_survey (_s : Session) (status : Nat) (body : Value) :
    Except ApiError Survey :=
  if 400 ≤ status && status < 600 then Except.error (ApiError.httpError status)
  else
    match body with
    | Value.obj m =>
      match Survey.make m with
      | some sv => Except.ok sv
      | Option.none => Except.error ApiError.dataError
    | _ => Except.error ApiError.dataError

/-- `Api.get_data` (source lines 156-158): GET `survey.meta["data"]`
(raising when the key is absent), then `r.json().get("results")` with
Python `None` when missing.  No authentication check either. -/
def get_data (_s : Session) (survey : Survey) (body : Value) :
    Except ApiError Value :=
  match lookupA survey.meta "data" with
  | Option.none => Except.error ApiError.dataError
  | some _ =>
    match body with
    | Value.obj r => Except.ok ((lookupA r "results").getD Value.null)
    | _ => Except.error ApiError.dataError

/-! ### The `extract_data` task (source lines 313-322) -/

/-- Observable pipeline-run events of a task: log lines and registered
file outputs. -/
inductive LogEvent where
  | logInfo (msg : String)
  | logWarning (msg : String)
  | logError (msg : String)
  | fileOutput (path : String)
  deriving DecidableEq

/-- The event trace of `extract_data` (source lines 313-322), given the
frame returned by `get_survey_data`.  The trace is literal: an info line,
then an unconditional `log_error` (there is no emptiness test and no
warning call in the task), then the CSV write and the closing info
line. -/
def extract_data_events (survey_name : String) (data : DataFrame)
    (output_dir : String) : List LogEvent :=
  let _ := data
  [LogEvent.logInfo ("Extracting data for survey " ++ survey_name),
   LogEvent.logError ("No data found in survey " ++ survey_name),
   LogEvent.fileOutput (output_dir ++ "/survey_data.csv"),
   LogEvent.logInfo ("Written survey data into " ++
     (output_dir ++ "/survey_data.csv"))]

/-- Is an event a warning? -/
def LogEvent.isWarning : LogEvent → Bool
  | .logWarning _ => true
  | _ => false

/-! ### Evaluation of the generated condition strings (for C3)

A tiny evaluator for exactly the two string shapes the parser is claimed
to produce, interpreting them the way Python would evaluate them against
a mapping named `record` (`record.get` returning `None` for a missing
key, `==` on strings, truthiness of the result). -/

/-- Truthiness of `record.get(f)` in Python: `None` is falsy, a string is
truthy when non-empty. -/
def pyTruthyStr : Option String → Bool
  | Option.none => false
  | some s => !(s == "")

/-- Evaluate a generated condition string against `record`.  The string
is split at apostrophes; the two recognised shapes are
`(record.get(F) == V)` with `F`, `V` quoted, and `record.get(F)` with
`F` quoted.  Anything else is not a generated shape (`none`). -/
def evalGenerated (expr : String) (record : String → Option String) :
    Option Bool :=
  match splitOnC (Char.ofNat 39) expr.data with
  | [a, f, m, v, c] =>
    if a = "(record.get(".data ∧ m = ") == ".data ∧ c = ")".data then
      some (record (String.mk f) == some (String.mk v))
    else Option.none
  | [a, f, c] =>
    if a = "record.get(".data ∧ c = ")".data then
      some (pyTruthyStr (record (String.mk f)))
    else Option.none
  | _ => Option.none

/-- Specification-side description of the `get_fields_metadata` output
for a survey with at least one retained field: three columns `name`,
`label`, `type`, one row per retained field in declaration order. -/
def fieldsTable (fields : List Field) : DataFrame :=
  { cols := [("name", (fields.filterMap recordSpec).map
                (fun r => (lookupA r "name").getD Value.null)),
             ("label", (fields.filterMap recordSpec).map
                (fun r => (lookupA r "label").getD Value.null)),
             ("type", (fields.filterMap recordSpec).map
                (fun r => (lookupA r "type").getD Value.null))] }

/-- A plain identifier-or-value fragment for a relevance expression: none
of the syntax characters `(`, `$`, the closing brace, the comma, or the
apostrophe occur in it (in particular: no embedded comma, the condition
of the claim). -/
def plainChars (l : List Char) : Bool :=
  l.all (fun c => !([Char.ofNat 40, Char.ofNat 36, Char.ofNat 125,
    Char.ofNat 44, Char.ofNat 39].contains c))

/-! ### Concrete inputs used by the witnesses -/

/-- A plain field name, as a char list. -/
def c3f : List Char := "fieldx".data

/-- A plain choice value, as a char list. -/
def c3v : List Char := "yes".data

/-- Survey content with four choice records: two for list `l1`, one
without a `list_name` key (to be skipped), one for list `l2`. -/
def c10content : Assoc :=
  [("choices", Value.list
    [Value.obj [("list_name", Value.str "l1"), ("name", Value.str "a")],
     Value.obj [("name", Value.str "skipme")],
     Value.obj [("list_name", Value.str "l1"), ("name", Value.str "b")],
     Value.obj [("list_name", Value.str "l2"), ("name", Value.str "c")]])]

/-- The raw choice values of `c10content`. -/
def c10cs : List Value :=
  [Value.obj [("list_name", Value.str "l1"), ("name", Value.str "a")],
   Value.obj [("name", Value.str "skipme")],
   Value.obj [("list_name", Value.str "l1"), ("name", Value.str "b")],
   Value.obj [("list_name", Value.str "l2"), ("name", Value.str "c")]]

/-- The grouping `parse_choices` builds from `c10cs`. -/
def c10m : ChoiceLists :=
  [(Value.str "l1", [[("list_name", Value.str "l1"), ("name", Value.str "a")],
                     [("list_name", Value.str "l1"), ("name", Value.str "b")]]),
   (Value.str "l2", [[("list_name", Value.str "l2"),
                      ("name", Value.str "c")]])]

/-- Three fields: a retained question, a group marker, a nameless one. -/
def c4Fields : List Field :=
  [Field.mk (Value.obj [("name", Value.str "q1"),
     ("label", Value.list [Value.str "Q1"]), ("type", Value.str "text")]),
   Field.mk (Value.obj [("name", Value.str "group1")]),
   Field.mk (Value.obj [])]

/-- Survey metadata with a `"content"` key and no choice lists. -/
def wSurveyMeta : Assoc := [("content", Value.obj [("survey", Value.list [])])]

/-- A three-row frame with `LATITUDE`/`LONGITUDE` columns. -/
def geoDf0 : DataFrame :=
  { cols := [("LATITUDE", [Value.num 12, Value.num 0, Value.null]),
             ("LONGITUDE", [Value.num (Rat.divInt (-3) 2), Value.num 7, Value.num 7])] }

/-- The latitude column of `geoDf0`. -/
def geoLats0 : List Value := [Value.num 12, Value.num 0, Value.null]

/-- The longitude column of `geoDf0`. -/
def geoLons0 : List Value := [Value.num (Rat.divInt (-3) 2), Value.num 7, Value.num 7]

/-- A one-row raw response frame with one group column, one plain raw
column and the three system columns (selection witness input). -/
def selDf0 : DataFrame :=
  { cols := [("group1/a", [Value.str "v1"]), ("other", [Value.num 9]),
             ("_status", [Value.str "ok"]),
             ("_geolocation", [Value.list [Value.num 5, Value.num (-3)]]),
             ("_attachments", [Value.null])] }

/-- The geolocation column of `selDf0`. -/
def selGeo0 : List Value := [Value.list [Value.num 5, Value.num (-3)]]

/-- A frame with an `ID`-prefixed column, a plain column, and a
lower-case `id` column (anonymization witness input). -/
def anonDf0 : DataFrame :=
  { cols := [("ID_XYZ", [Value.str "secret"]), ("LOCATION", [Value.str "loc1"]),
             ("id_low", [Value.str "keep"])] }

/-! ## Theorems -/

/-! ### Helper lemmas about labelled column lists -/

/-- Helper: a key not bound in the list filters to nothing. -/
theorem filter_key_eq_nil {α : Type} (l : List (String × α)) (k : String)
    (h : k ∉ l.map Prod.fst) : l.filter (fun c => c.1 == k) = [] := by
  induction l with
  | nil => rfl
  | cons c rest ih =>
    rw [List.map_cons, List.mem_cons, not_or] at h
    rw [List.filter_cons, if_neg]
    · exact ih h.2
    · simp only [beq_iff_eq]
      exact fun hc => h.1 hc.symm

/-- Helper: under distinct labels, a bound key is found and filters to
exactly its column. -/
theorem filter_key_singleton {α : Type} (l : List (String × α)) (k : String)
    (hnd : (l.map Prod.fst).Nodup) (hmem : k ∈ l.map Prod.fst) :
    ∃ v, l.find? (fun c => c.1 == k) = some (k, v)
      ∧ l.filter (fun c => c.1 == k) = [(k, v)] := by
  induction l with
  | nil => simp at hmem
  | cons c rest ih =>
    rw [List.map_cons, List.nodup_cons] at hnd
    rw [List.map_cons, List.mem_cons] at hmem
    by_cases hc : c.1 = k
    · refine ⟨c.2, ?_, ?_⟩
      · rw [List.find?_cons_of_pos _ (by simp [hc]), ← hc]
      · rw [List.filter_cons, if_pos (by simp [hc]),
          filter_key_eq_nil rest k (hc ▸ hnd.1), ← hc]
    · have hm2 : k ∈ rest.map Prod.fst := by
        cases hmem with
        | inl h => exact absurd h.symm hc
        | inr h => exact h
      obtain ⟨v, hf, hfil⟩ := ih hnd.2 hm2
      refine ⟨v, ?_, ?_⟩
      · rw [List.find?_cons_of_neg _ (by simp [hc]), hf]
      · rw [List.filter_cons, if_neg (by simp [hc]), hfil]

/-- Helper: flattening a map to singletons is a map. -/
theorem flatten_map_singleton {α β : Type} (l : List α) (f : α → β) :
    (l.map (fun a => [f a])).flatten = l.map f := by
  induction l with
  | nil => rfl
  | cons a l ih => simp [ih]

/-- Helper: selecting by a list of bound labels from a frame with
distinct labels succeeds and returns one column per requested label,
namely the column carrying that label. -/
theorem selectColumns_nodup (df : DataFrame) (key : List String)
    (hnd : df.columns.Nodup) (hkey : ∀ k ∈ key, k ∈ df.columns) :
    selectColumns df key =
      some { cols := key.map (fun k => (k, (df.col? k).getD [])) } := by
  have hone : ∀ k ∈ key,
      df.cols.filter (fun c => c.1 == k) = [(k, (df.col? k).getD [])] := by
    intro k hk
    obtain ⟨v, hf, hfil⟩ := filter_key_singleton df.cols k hnd (hkey k hk)
    rw [hfil]
    unfold DataFrame.col?
    rw [hf]
    rfl
  unfold selectColumns
  rw [List.map_congr_left hone]
  have hno : ((key.map (fun k => [(k, (df.col? k).getD [])])).any
      List.isEmpty) = false := by
    rw [List.any_eq_false]
    intro x hx
    rw [List.mem_map] at hx
    obtain ⟨k, hk, rfl⟩ := hx
    simp
  rw [hno]
  rw [flatten_map_singleton key (fun k => (k, (df.col? k).getD []))]
  simp

/-- Helper: under distinct labels, selecting the labels that satisfy `p`
is the same as filtering the columns on `p`. -/
theorem select_values_filter {α : Type} (l : List (String × α)) (d : α)
    (p : String → Bool) (hnd : (l.map Prod.fst).Nodup) :
    ((l.map Prod.fst).filter p).map
      (fun k => (k, ((l.find? (fun c => c.1 == k)).map Prod.snd).getD d)) =
    l.filter (fun c => p c.1) := by
  induction l with
  | nil => rfl
  | cons c rest ih =>
    rw [List.map_cons, List.nodup_cons] at hnd
    have hcong : ∀ k ∈ (rest.map Prod.fst).filter p,
        (fun k => (k, (((c :: rest).find? (fun x => x.1 == k)).map
            Prod.snd).getD d)) k =
        (fun k => (k, ((rest.find? (fun x => x.1 == k)).map
            Prod.snd).getD d)) k := by
      intro k hk
      have hkmem : k ∈ rest.map Prod.fst := List.mem_of_mem_filter hk
      have hne2 : (c.1 == k) = false :=
        beq_eq_false_iff_ne.mpr (fun hh => hnd.1 (hh ▸ hkmem))
      simp only []
      rw [List.find?_cons, hne2]
    rw [List.map_cons, List.filter_cons, List.filter_cons]
    by_cases hp : p c.1 = true
    · rw [if_pos hp, if_pos hp, List.map_cons]
      rw [List.map_congr_left hcong, ih hnd.2]
      rw [List.find?_cons_of_pos _ (by simp)]
      rfl
    · rw [if_neg hp, if_neg hp]
      rw [List.map_congr_left hcong, ih hnd.2]

/-- C1: evaluation of the data calls on a client on which `authenticate`
was never called.  `check_authentication` would raise an
`AuthenticationError` on this session, but none of `list_surveys`,
`get_survey`, `get_data` invokes it: each call proceeds and returns data.
This refutes the claimed behaviour and exhibits the code slip (the guard
exists but is dead code). -/
theorem data_calls_skip_authentication_check :
    check_authentication newSession = Except.error ApiError.authenticationError
    ∧ list_surveys newSession (Value.obj [("results", Value.list
        [Value.obj [("asset_type", Value.str "survey"), ("uid", Value.str "u1"),
          ("name", Value.str "Survey One")]])]) =
      Except.ok [[("uid", Value.str "u1"), ("name", Value.str "Survey One")]]
    ∧ get_survey newSession 200 (Value.obj [("uid", Value.str "u1")]) =
      Except.ok { meta := [("uid", Value.str "u1")],
                  fields := Option.none, choices := Option.none }
    ∧ get_data newSession
        { meta := [("data", Value.str "https://kobo.example/data")],
          fields := Option.none, choices := Option.none }
        (Value.obj [("results", Value.list [Value.obj [("_status", Value.str "ok")]])]) =
      Except.ok (Value.list [Value.obj [("_status", Value.str "ok")]]) :=
  ⟨rfl, rfl, rfl, rfl⟩

/-- C2: the event trace of `extract_data` on a survey with two response
rows.  The task logs the error line `No data found in survey ...`
unconditionally, even though the frame is non-empty, and emits no warning
at all; the CSV write still happens.  This refutes the claimed
warning-iff-empty behaviour and exhibits the code slip. -/
theorem extract_data_logs_unconditional_error :
    extract_data_events "SURVEY"
        { cols := [("_status", [Value.str "ok", Value.str "ok"])] } "out" =
      [LogEvent.logInfo "Extracting data for survey SURVEY",
       LogEvent.logError "No data found in survey SURVEY",
       LogEvent.fileOutput "out/survey_data.csv",
       LogEvent.logInfo "Written survey data into out/survey_data.csv"]
    ∧ DataFrame.nrows { cols := [("_status", [Value.str "ok", Value.str "ok"])] } = 2
    ∧ (extract_data_events "SURVEY"
        { cols := [("_status", [Value.str "ok", Value.str "ok"])] } "out").all
        (fun e => !e.isWarning) = true :=
  ⟨rfl, rfl, rfl⟩

/-- C4 counterexample: a survey whose only field is named `"group1"`
retains no field, and `pd.DataFrame([])` then has no columns at all, so
the output table does not have the three columns `name`, `label`,
`type`. -/
theorem get_fields_metadata_no_retained_no_columns :
    get_fields_metadata [Field.mk (Value.obj [("name", Value.str "group1")])] =
      some { cols := [] }
    ∧ (get_fields_metadata
        [Field.mk (Value.obj [("name", Value.str "group1")])]).map
        DataFrame.columns ≠ some ["name", "label", "type"] :=
  ⟨rfl, by decide⟩

/-- C5 counterexample: two raw keys `groupA/x` and `groupB/x` both
simplify to `x`.  The rename produces duplicate labels instead of
overwriting, and the selection returns every matching column for each
occurrence of `x` in the selection list: both data columns survive (the
earlier value 1 is still present, twice), and the output does not have
the deduplicated column list an overwrite would produce. -/
theorem koboSelect_collision_no_overwrite :
    koboSelect { cols := [("groupA/x", [Value.num 1]), ("groupB/x", [Value.num 2]),
        ("_status", [Value.str "ok"]), ("_geolocation", [Value.null]),
        ("_attachments", [Value.null])] } =
      some { cols := [("x", [Value.num 1]), ("x", [Value.num 2]),
        ("x", [Value.num 1]), ("x", [Value.num 2]),
        ("_status", [Value.str "ok"]), ("_geolocation", [Value.null]),
        ("_attachments", [Value.null])] }
    ∧ (koboSelect { cols := [("groupA/x", [Value.num 1]), ("groupB/x", [Value.num 2]),
        ("_status", [Value.str "ok"]), ("_geolocation", [Value.null]),
        ("_attachments", [Value.null])] }).map DataFrame.columns ≠
      some ["x", "_status", "_geolocation", "_attachments"] :=
  ⟨rfl, by decide⟩

/-! ### Helper lemmas about the rename, assignment and drop steps -/

/-- Helper: the labels of the renamed frame. -/
theorem koboRename_columns (raw : DataFrame) :
    (koboRename raw).columns = applyRename raw.columns := by
  unfold koboRename applyRename DataFrame.columns
  rw [List.map_map, List.map_map]
  rfl

/-- Helper: a column without the substring `"group"` keeps its label. -/
theorem renameCol_fix (c : String) (h : strContains c "group" = false) :
    renameCol c = c := by
  unfold renameCol
  rw [h]
  simp

/-- Helper: every selection-key label is a label of the renamed frame. -/
theorem selectionKey_mem (raw : DataFrame)
    (hs1 : "_status" ∈ raw.columns) (hs2 : "_geolocation" ∈ raw.columns)
    (hs3 : "_attachments" ∈ raw.columns) :
    ∀ k ∈ selectionKey raw.columns, k ∈ (koboRename raw).columns := by
  intro k hk
  rw [koboRename_columns]
  unfold selectionKey at hk
  rw [List.mem_append] at hk
  unfold applyRename
  rw [List.mem_map]
  cases hk with
  | inl h =>
    unfold groupSimplified at h
    rw [List.mem_map] at h
    obtain ⟨c, hc, rfl⟩ := h
    have hcf := List.mem_filter.mp hc
    refine ⟨c, hcf.1, ?_⟩
    unfold renameCol
    rw [hcf.2]
    simp
  | inr h =>
    simp only [List.mem_cons, List.mem_singleton, List.not_mem_nil, or_false] at h
    rcases h with rfl | rfl | rfl
    · exact ⟨"_status", hs1, rfl⟩
    · exact ⟨"_geolocation", hs2, rfl⟩
    · exact ⟨"_attachments", hs3, rfl⟩

/-- Helper: looking a label up through the rename: a label unchanged by
the rename and bound in the raw frame yields the same column after the
rename, provided the renamed labels are distinct. -/
theorem find?_rename_fix (l : List (String × List Value)) (q : String)
    (g : List Value) (hq : renameCol q = q)
    (hnd : ((l.map Prod.fst).map renameCol).Nodup)
    (h : (l.find? (fun c => c.1 == q)).map Prod.snd = some g) :
    ((l.map (fun c => (renameCol c.1, c.2))).find?
      (fun c => c.1 == q)).map Prod.snd = some g := by
  induction l with
  | nil => simp at h
  | cons c rest ih =>
    rw [List.map_cons, List.map_cons, List.nodup_cons] at hnd
    by_cases hc : c.1 = q
    · rw [List.find?_cons_of_pos _ (by simp [hc])] at h
      rw [List.map_cons, List.find?_cons_of_pos _ (by simp [hc, hq])]
      exact h
    · rw [List.find?_cons_of_neg _ (by simp [hc])] at h
      have hqm : q ∈ rest.map Prod.fst := by
        cases hfind : rest.find? (fun c => c.1 == q) with
        | none => rw [hfind] at h; simp at h
        | some pr =>
          have hp := List.find?_some hfind
          have hm := List.mem_of_find?_eq_some hfind
          rw [List.mem_map]
          exact ⟨pr, hm, by simpa using hp⟩
      have hneP : renameCol c.1 ≠ q := fun heq => hnd.1
        (by rw [heq, ← hq]; exact List.mem_map_of_mem renameCol hqm)
      have hne2 : ((renameCol c.1) == q) = false := beq_eq_false_iff_ne.mpr hneP
      rw [List.map_cons, List.find?_cons, hne2]
      exact ih hnd.2 h

/-- Helper: looking a label up in a frame built as a map over a key
list: the first occurrence of the label wins and carries its value. -/
theorem find?_map_pair {α : Type} (key : List String) (h : String → α)
    (q : String) (hq : q ∈ key) :
    (key.map (fun k => (k, h k))).find? (fun c => c.1 == q) = some (q, h q) := by
  induction key with
  | nil => simp at hq
  | cons k rest ih =>
    by_cases hk : k = q
    · subst hk
      rw [List.map_cons, List.find?_cons_of_pos _ (by simp)]
    · rw [List.map_cons, List.find?_cons_of_neg _ (by simp [hk])]
      exact ih ((List.mem_cons.mp hq).resolve_left (fun hh => hk hh.symm))

/-- Helper: setting an existing column: the lookup then yields the new
values. -/
theorem find?_setval (l : List (String × List Value)) (n : String)
    (vals : List Value) (hmem : n ∈ l.map Prod.fst) :
    ((l.map (fun c => if c.1 == n then (c.1, vals) else c)).find?
      (fun c => c.1 == n)).map Prod.snd = some vals := by
  induction l with
  | nil => simp at hmem
  | cons c rest ih =>
    rw [List.map_cons]
    by_cases hc : c.1 = n
    · rw [show (if (c.1 == n) = true then (c.1, vals) else c) = (c.1, vals) from
        by simp [hc]]
      rw [List.find?_cons_of_pos _ (by simp [hc])]
      rfl
    · rw [show (if (c.1 == n) = true then (c.1, vals) else c) = c from
        by simp [hc]]
      rw [List.find?_cons_of_neg _ (by simp [hc])]
      exact ih ((List.mem_cons.mp hmem).resolve_left (fun hh => hc hh.symm))

/-- Helper: setting column `n` leaves the lookup of any other label
unchanged. -/
theorem find?_setval_other (l : List (String × List Value)) (n : String)
    (vals : List Value) (q : String) (hq : q ≠ n) :
    (l.map (fun c => if c.1 == n then (c.1, vals) else c)).find?
      (fun c => c.1 == q) = l.find? (fun c => c.1 == q) := by
  induction l with
  | nil => rfl
  | cons c rest ih =>
    rw [List.map_cons]
    by_cases hc : c.1 = q
    · have hcn : (c.1 == n) = false :=
        beq_eq_false_iff_ne.mpr (fun hh => hq (hc ▸ hh))
      rw [show (if (c.1 == n) = true then (c.1, vals) else c) = c from
        by simp [hcn]]
      rw [List.find?_cons_of_pos _ (by simp [hc]),
        List.find?_cons_of_pos _ (by simp [hc])]
    · have hlabel : (if (c.1 == n) = true then (c.1, vals) else c).1 = c.1 := by
        by_cases hcn : (c.1 == n) = true <;> simp [hcn]
      rw [List.find?_cons_of_neg _ (by rw [hlabel]; simp [hc]),
        List.find?_cons_of_neg _ (by simp [hc])]
      exact ih

/-- Helper: `df[n] = vals` makes column `n` read back as `vals`. -/
theorem assign_col?_self (df : DataFrame) (n : String) (vals : List Value) :
    (assignColumn df n vals).col? n = some vals := by
  unfold assignColumn
  by_cases hc : df.columns.contains n = true
  · rw [if_pos hc]
    show ((df.cols.map (fun c => if c.1 == n then (c.1, vals) else c)).find?
      (fun c => c.1 == n)).map Prod.snd = some vals
    have hm : n ∈ df.columns := by simpa using hc
    exact find?_setval df.cols n vals hm
  · rw [if_neg hc]
    show ((df.cols ++ [(n, vals)]).find? (fun c => c.1 == n)).map Prod.snd =
      some vals
    rw [List.find?_append]
    have hnmem : n ∉ df.columns := fun hm => hc (by simpa using hm)
    have hnone : df.cols.find? (fun c => c.1 == n) = Option.none := by
      rw [List.find?_eq_none]
      intro x hx
      simp only [beq_iff_eq]
      intro hh
      exact hnmem (hh ▸ List.mem_map_of_mem Prod.fst hx)
    rw [hnone, Option.none_or, List.find?_cons_of_pos _ (by simp)]
    rfl

/-- Helper: `df[n] = vals` leaves every other label unchanged. -/
theorem assign_col?_other (df : DataFrame) (n : String) (vals : List Value)
    (q : String) (hq : q ≠ n) :
    (assignColumn df n vals).col? q = df.col? q := by
  unfold assignColumn
  by_cases hc : df.columns.contains n = true
  · rw [if_pos hc]
    show ((df.cols.map (fun c => if c.1 == n then (c.1, vals) else c)).find?
      (fun c => c.1 == q)).map Prod.snd = _
    rw [find?_setval_other df.cols n vals q hq]
    rfl
  · rw [if_neg hc]
    show ((df.cols ++ [(n, vals)]).find? (fun c => c.1 == q)).map Prod.snd = _
    rw [List.find?_append]
    have h2 : [(n, vals)].find? (fun c => c.1 == q) = Option.none := by
      rw [List.find?_eq_none]
      intro x hx
      rcases List.mem_singleton.mp hx with rfl
      simp only [beq_iff_eq]
      exact fun hh => hq hh.symm
    rw [h2, Option.or_none]
    rfl

/-- Helper: dropping labels leaves the lookup of a label not dropped
unchanged. -/
theorem find?_filter_keep (l : List (String × List Value))
    (names : List String) (q : String) (hq : names.contains q = false) :
    (l.filter (fun c => !(names.contains c.1))).find? (fun c => c.1 == q) =
    l.find? (fun c => c.1 == q) := by
  induction l with
  | nil => rfl
  | cons c rest ih =>
    rw [List.filter_cons]
    by_cases hcq : c.1 = q
    · rw [if_pos (by rw [hcq, hq]; rfl)]
      rw [List.find?_cons_of_pos _ (by simp [hcq]),
        List.find?_cons_of_pos _ (by simp [hcq])]
    · cases hk : (names.contains c.1) with
      | true =>
        rw [if_neg (by simp)]
        rw [List.find?_cons_of_neg _ (by simp [hcq])]
        exact ih
      | false =>
        rw [if_pos (by rfl)]
        rw [List.find?_cons_of_neg _ (by simp [hcq]),
          List.find?_cons_of_neg _ (by simp [hcq])]
        exact ih

/-- Helper: `df.drop(columns=names)` preserves the lookup of a label not
dropped. -/
theorem drop_col?_keep (df : DataFrame) (names : List String) (q : String)
    (hq : names.contains q = false) :
    (dropColumns df names).col? q = df.col? q := by
  unfold dropColumns
  show ((df.cols.filter (fun c => !(names.contains c.1))).find?
    (fun c => c.1 == q)).map Prod.snd = _
  rw [find?_filter_keep df.cols names q hq]
  rfl

/-- Helper: a dropped label is gone from the columns. -/
theorem drop_not_mem_columns (df : DataFrame) (names : List String)
    (q : String) (hq : names.contains q = true) :
    q ∉ (dropColumns df names).columns := by
  intro hmem
  unfold dropColumns DataFrame.columns at hmem
  rw [List.mem_map] at hmem
  obtain ⟨c, hc, rfl⟩ := hmem
  have h2 := List.mem_filter.mp hc
  have h3 := h2.2
  rw [hq] at h3
  simp at h3

/-- C8: when anonymization is requested, `update_geonode` keeps exactly
the columns whose name does not start with `"ID"` (case-sensitive),
unchanged and in order: the output is the input frame filtered on that
predicate, every kept column keeps its data, and no `ID`-prefixed name
survives. -/
theorem anonymize_drops_ID_prefix (df : DataFrame)
    (hnd : df.columns.Nodup) :
    anonymizeColumns df =
      some { cols := df.cols.filter (fun c => !(strStartsWith c.1 "ID")) }
    ∧ (∀ name vals, (name, vals) ∈ df.cols → strStartsWith name "ID" = false →
        (name, vals) ∈ df.cols.filter (fun c => !(strStartsWith c.1 "ID")))
    ∧ (∀ name, strStartsWith name "ID" = true →
        name ∉ (df.cols.filter
          (fun c => !(strStartsWith c.1 "ID"))).map Prod.fst) := by
  have hkey : ∀ k ∈ df.columns.filter (fun c => !(strStartsWith c "ID")),
      k ∈ df.columns := fun k hk => List.mem_of_mem_filter hk
  have h1 := selectColumns_nodup df
    (df.columns.filter (fun c => !(strStartsWith c "ID"))) hnd hkey
  have h2 : (df.columns.filter (fun c => !(strStartsWith c "ID"))).map
      (fun k => (k, (df.col? k).getD [])) =
      df.cols.filter (fun c => !(strStartsWith c.1 "ID")) :=
    select_values_filter df.cols [] (fun c => !(strStartsWith c "ID")) hnd
  refine ⟨?_, ?_, ?_⟩
  · unfold anonymizeColumns
    rw [h1, h2]
  · intro name vals hm hp
    exact List.mem_filter.mpr ⟨hm, by simp [hp]⟩
  · intro name hp hmem
    rw [List.mem_map] at hmem
    obtain ⟨c, hc, rfl⟩ := hmem
    have hcf := List.mem_filter.mp hc
    rw [hp] at hcf
    simp at hcf

/-- C8 witness: on `anonDf0`, anonymization drops `ID_XYZ` but keeps
`LOCATION` and the lower-case `id_low` (the prefix match is
case-sensitive), with data unchanged. -/
theorem anonymize_drops_ID_prefix_witness :
    anonDf0.columns.Nodup
    ∧ (anonymizeColumns anonDf0 =
        some { cols := anonDf0.cols.filter (fun c => !(strStartsWith c.1 "ID")) }
      ∧ (∀ name vals, (name, vals) ∈ anonDf0.cols →
          strStartsWith name "ID" = false →
          (name, vals) ∈ anonDf0.cols.filter (fun c => !(strStartsWith c.1 "ID")))
      ∧ (∀ name, strStartsWith name "ID" = true →
          name ∉ (anonDf0.cols.filter
            (fun c => !(strStartsWith c.1 "ID"))).map Prod.fst))
    ∧ anonymizeColumns anonDf0 =
      some { cols := [("LOCATION", [Value.str "loc1"]),
                      ("id_low", [Value.str "keep"])] } :=
  ⟨by decide, anonymize_drops_ID_prefix anonDf0 (by decide), rfl⟩

/-! ### Helper lemmas about `replaceRun` (Python `str.replace`) -/

/-- Helper: any sufficient fuel computes the same replacement. -/
theorem replaceAux_fuel_eq (pat repl : List Char) :
    ∀ f1 f2 (s : List Char), s.length ≤ f1 → s.length ≤ f2 →
      replaceAux pat repl f1 s = replaceAux pat repl f2 s := by
  intro f1
  induction f1 with
  | zero =>
    intro f2 s h1 h2
    cases s with
    | nil => cases f2 <;> rfl
    | cons c cs => simp at h1
  | succ f1 ih =>
    intro f2 s h1 h2
    cases s with
    | nil => cases f2 <;> rfl
    | cons c cs =>
      cases f2 with
      | zero => simp at h2
      | succ f2 =>
        show (if prefixOfChars pat (c :: cs) = true then
            repl ++ replaceAux pat repl f1 (cs.drop (pat.length - 1))
          else c :: replaceAux pat repl f1 cs) =
          (if prefixOfChars pat (c :: cs) = true then
            repl ++ replaceAux pat repl f2 (cs.drop (pat.length - 1))
          else c :: replaceAux pat repl f2 cs)
        have hlen : cs.length ≤ f1 := Nat.le_of_succ_le_succ h1
        have hlen2 : cs.length ≤ f2 := Nat.le_of_succ_le_succ h2
        have hd : (cs.drop (pat.length - 1)).length ≤ cs.length := by
          rw [List.length_drop]
          exact Nat.sub_le _ _
        by_cases hp : prefixOfChars pat (c :: cs) = true
        · rw [if_pos hp,
            ih f2 _ (le_trans hd hlen) (le_trans hd hlen2), if_pos hp]
        · rw [if_neg hp, ih f2 cs hlen hlen2, if_neg hp]

/-- Helper: the one-step unfolding of the replacement. -/
theorem replaceRun_cons (pat repl : List Char) (c : Char) (cs : List Char) :
    replaceRun pat repl (c :: cs) =
      if prefixOfChars pat (c :: cs) = true then
        repl ++ replaceRun pat repl (cs.drop (pat.length - 1))
      else c :: replaceRun pat repl cs := by
  unfold replaceRun
  show (if prefixOfChars pat (c :: cs) = true then
      repl ++ replaceAux pat repl cs.length (cs.drop (pat.length - 1))
    else c :: replaceAux pat repl cs.length cs) = _
  have hd : (cs.drop (pat.length - 1)).length ≤ cs.length := by
    rw [List.length_drop]
    exact Nat.sub_le _ _
  by_cases hp : prefixOfChars pat (c :: cs) = true
  · rw [if_pos hp, if_pos hp,
      replaceAux_fuel_eq pat repl cs.length (cs.drop (pat.length - 1)).length
        (cs.drop (pat.length - 1)) hd le_rfl]
  · rw [if_neg hp, if_neg hp]

/-- Helper: a matching prefix lists all its characters in the string. -/
theorem prefix_subset (pat : List Char) :
    ∀ t, prefixOfChars pat t = true → ∀ x ∈ pat, x ∈ t := by
  induction pat with
  | nil =>
    intro t h x hx
    simp at hx
  | cons p ps ih =>
    intro t h x hx
    cases t with
    | nil => exact absurd h (by simp [prefixOfChars])
    | cons c cs =>
      unfold prefixOfChars at h
      rw [Bool.and_eq_true] at h
      rcases List.mem_cons.mp hx with rfl | hx2
      · have hpc : x = c := by simpa using h.1
        rw [hpc]
        exact List.mem_cons_self c cs
      · exact List.mem_cons_of_mem c (ih cs h.2 x hx2)

/-- Helper: no occurrence of the pattern leaves the string unchanged. -/
theorem replaceRun_no_sub (pat repl : List Char) :
    ∀ s, hasSubChars pat s = false → replaceRun pat repl s = s := by
  intro s
  induction s with
  | nil => intro h; rfl
  | cons c cs ih =>
    intro hno
    unfold hasSubChars at hno
    rw [Bool.or_eq_false_iff] at hno
    rw [replaceRun_cons]
    rw [if_neg (by rw [hno.1]; simp)]
    rw [ih hno.2]

/-- Helper: a pattern character missing from the string rules out any
occurrence of the pattern. -/
theorem no_sub_of_char_notin (pat : List Char) (x : Char) (hx : x ∈ pat) :
    ∀ s, x ∉ s → hasSubChars pat s = false := by
  intro s
  induction s with
  | nil =>
    intro hns
    cases pat with
    | nil => simp at hx
    | cons p ps => rfl
  | cons c cs ih =>
    intro hns
    unfold hasSubChars
    rw [Bool.or_eq_false_iff]
    constructor
    · cases hpp : prefixOfChars pat (c :: cs) with
      | false => rfl
      | true => exact absurd (prefix_subset pat (c :: cs) hpp x hx) hns
    · exact ih (fun hc => hns (List.mem_cons_of_mem c hc))

/-- Helper: replacement walks over a segment free of the pattern head. -/
theorem replaceRun_append_skip (pat repl : List Char) (p : Char)
    (pt : List Char) (hpat : pat = p :: pt) :
    ∀ a s, p ∉ a →
      replaceRun pat repl (a ++ s) = a ++ replaceRun pat repl s := by
  intro a
  induction a with
  | nil => intro s hpa; rfl
  | cons c a' ih =>
    intro s hpa
    rw [List.cons_append, replaceRun_cons]
    have hpf : prefixOfChars pat (c :: (a' ++ s)) = false := by
      rw [hpat]
      unfold prefixOfChars
      rw [show (p == c) = false from beq_eq_false_iff_ne.mpr
        (fun hh => hpa (by rw [hh]; exact List.mem_cons_self c a'))]
      rfl
    rw [if_neg (by rw [hpf]; simp)]
    rw [ih s (fun hc => hpa (List.mem_cons_of_mem c hc))]
    rfl

/-- Helper: a prefix matches itself. -/
theorem prefixOfChars_append_self (l s : List Char) :
    prefixOfChars l (l ++ s) = true := by
  induction l with
  | nil => rfl
  | cons c cs ih =>
    rw [List.cons_append]
    unfold prefixOfChars
    rw [Bool.and_eq_true]
    exact ⟨by simp, ih⟩

/-- Helper: replacement fires on a leading occurrence of the pattern and
continues after it (the replacement text is not rescanned). -/
theorem replaceRun_append_fire (pat repl : List Char) (s : List Char)
    (hne : pat ≠ []) :
    replaceRun pat repl (pat ++ s) = repl ++ replaceRun pat repl s := by
  cases hp : pat with
  | nil => exact absurd hp hne
  | cons p pt =>
    rw [List.cons_append, replaceRun_cons]
    have hpf : prefixOfChars (p :: pt) (p :: (pt ++ s)) = true := by
      unfold prefixOfChars
      rw [Bool.and_eq_true]
      exact ⟨by simp, prefixOfChars_append_self pt s⟩
    rw [if_pos hpf]
    congr 1
    rw [show (p :: pt).length - 1 = pt.length from by simp]
    rw [List.drop_left]

/-- Helper: replacement of the single occurrence of the pattern. -/
theorem replaceRun_single (pat repl : List Char) (p : Char) (pt a b : List Char)
    (hpat : pat = p :: pt) (hpa : p ∉ a) (hnb : hasSubChars pat b = false) :
    replaceRun pat repl (a ++ pat ++ b) = a ++ repl ++ b := by
  rw [List.append_assoc, replaceRun_append_skip pat repl p pt hpat a (pat ++ b) hpa]
  rw [replaceRun_append_fire pat repl b (by rw [hpat]; exact List.cons_ne_nil p pt)]
  rw [replaceRun_no_sub pat repl b hnb]
  rw [List.append_assoc]

/-! ### Helper lemmas about `splitOnC` -/

/-- Helper: splitting walks over a separator-free segment. -/
theorem splitOnC_append_notmem (c : Char) (l r : List Char)
    (g : List Char) (gs : List (List Char)) (hr : splitOnC c r = g :: gs) :
    c ∉ l → splitOnC c (l ++ r) = (l ++ g) :: gs := by
  induction l with
  | nil =>
    intro hl
    simpa using hr
  | cons a l' ih =>
    intro hl
    rw [List.cons_append]
    unfold splitOnC
    rw [ih (fun hc => hl (List.mem_cons_of_mem a hc))]
    have hac : (a == c) = false := beq_eq_false_iff_ne.mpr
      (fun hh => hl (by rw [← hh]; exact List.mem_cons_self a l'))
    show (if (a == c) = true then [] :: (l' ++ g) :: gs
      else (a :: (l' ++ g)) :: gs) = ((a :: l') ++ g) :: gs
    rw [hac]
    rfl

/-- Helper: splitting at a leading separator. -/
theorem splitOnC_cons_sep (c : Char) (r : List Char) :
    splitOnC c (c :: r) = [] :: splitOnC c r := by
  show (match splitOnC c r with
    | [] => [[]]
    | g :: gs =>
      if (c == c) = true then [] :: g :: gs else (c :: g) :: gs) =
    [] :: splitOnC c r
  cases hr : splitOnC c r with
  | nil => rfl
  | cons g gs =>
    show (if (c == c) = true then [] :: g :: gs else (c :: g) :: gs) =
      [] :: g :: gs
    rw [if_pos (by simp)]

/-- Helper: a five-segment split evaluates as the generated equality
test. -/
theorem evalGenerated_of_split5 (expr : String)
    (record : String → Option String) (F V : List Char)
    (h : splitOnC (Char.ofNat 39) expr.data =
      ["(record.get(".data, F, ") == ".data, V, ")".data]) :
    evalGenerated expr record =
      some (record (String.mk F) == some (String.mk V)) := by
  unfold evalGenerated
  rw [h]
  show (if ("(record.get(".data = "(record.get(".data
      ∧ ") == ".data = ") == ".data ∧ ")".data = ")".data) then
      some (record (String.mk F) == some (String.mk V))
    else Option.none) = some (record (String.mk F) == some (String.mk V))
  rw [if_pos ⟨rfl, rfl, rfl⟩]

/-- Helper: a three-segment split evaluates as the generated truthiness
test. -/
theorem evalGenerated_of_split3 (expr : String)
    (record : String → Option String) (F : List Char)
    (h : splitOnC (Char.ofNat 39) expr.data =
      ["record.get(".data, F, ")".data]) :
    evalGenerated expr record = some (pyTruthyStr (record (String.mk F))) := by
  unfold evalGenerated
  rw [h]
  show (if ("record.get(".data = "record.get(".data
      ∧ ")".data = ")".data) then
      some (pyTruthyStr (record (String.mk F)))
    else Option.none) = some (pyTruthyStr (record (String.mk F)))
  rw [if_pos ⟨rfl, rfl⟩]

/-- Helper: a plain fragment avoids each special character. -/
theorem plain_not_mem (l : List Char) (h : plainChars l = true) (x : Char)
    (hx : ([Char.ofNat 40, Char.ofNat 36, Char.ofNat 125, Char.ofNat 44,
      Char.ofNat 39].contains x) = true) : x ∉ l := by
  intro hm
  have h2 := List.all_eq_true.mp h x hm
  rw [hx] at h2
  simp at h2

/-- Helper: `parse_condition` is the four-fold replacement chain on the
character list of its input (the four patterns are non-empty, so the
guard of `replaceStr` never fires). -/
theorem parse_condition_eq (s : String) :
    Field.parse_condition s = String.mk (replaceRun ", ".data " == ".data
      (replaceRun "\x7d".data "\x27)".data
        (replaceRun "$\x7b".data "record.get(\x27".data
          (replaceRun "selected($\x7b".data "(record.get(\x27".data
            s.data)))) := rfl

/-- C3: on a well-formed relevance expression built from plain fragments
(no comma, no syntax characters inside the field name or the value), the
parser produces exactly the claimed output shapes, and the produced
strings evaluate against a record mapping as the equality test on the
field (respectively the truthiness of the field value). -/
theorem parse_condition_forms (f v : List Char)
    (hf : plainChars f = true) (hv : plainChars v = true) :
    Field.parse_condition (String.mk ("selected($\x7b".data ++ f ++
        "\x7d, \x27".data ++ v ++ "\x27)".data)) =
      String.mk ("(record.get(\x27".data ++ f ++ "\x27) == \x27".data ++ v ++
        "\x27)".data)
    ∧ Field.parse_condition (String.mk ("$\x7b".data ++ f ++ "\x7d".data)) =
      String.mk ("record.get(\x27".data ++ f ++ "\x27)".data)
    ∧ (∀ record : String → Option String,
        evalGenerated (Field.parse_condition (String.mk ("selected($\x7b".data
          ++ f ++ "\x7d, \x27".data ++ v ++ "\x27)".data))) record =
          some (record (String.mk f) == some (String.mk v)))
    ∧ (∀ record : String → Option String,
        evalGenerated (Field.parse_condition
          (String.mk ("$\x7b".data ++ f ++ "\x7d".data))) record =
          some (pyTruthyStr (record (String.mk f)))) := by
  have hf40 : Char.ofNat 40 ∉ f := plain_not_mem f hf _ (by decide)
  have hf36 : Char.ofNat 36 ∉ f := plain_not_mem f hf _ (by decide)
  have hf125 : Char.ofNat 125 ∉ f := plain_not_mem f hf _ (by decide)
  have hf44 : Char.ofNat 44 ∉ f := plain_not_mem f hf _ (by decide)
  have hf39 : Char.ofNat 39 ∉ f := plain_not_mem f hf _ (by decide)
  have hv40 : Char.ofNat 40 ∉ v := plain_not_mem v hv _ (by decide)
  have hv36 : Char.ofNat 36 ∉ v := plain_not_mem v hv _ (by decide)
  have hv125 : Char.ofNat 125 ∉ v := plain_not_mem v hv _ (by decide)
  have hv44 : Char.ofNat 44 ∉ v := plain_not_mem v hv _ (by decide)
  have hv39 : Char.ofNat 39 ∉ v := plain_not_mem v hv _ (by decide)
  -- the selected(...) chain
  have hno1 : hasSubChars "selected($\x7b".data
      (f ++ ("\x7d, \x27".data ++ (v ++ "\x27)".data))) = false := by
    apply no_sub_of_char_notin _ (Char.ofNat 40) (by decide)
    intro hm
    rcases List.mem_append.mp hm with hm | hm
    · exact hf40 hm
    rcases List.mem_append.mp hm with hm | hm
    · exact absurd hm (by decide)
    rcases List.mem_append.mp hm with hm | hm
    · exact hv40 hm
    · exact absurd hm (by decide)
  have hstep1 : replaceRun "selected($\x7b".data "(record.get(\x27".data
      ("selected($\x7b".data ++ (f ++ ("\x7d, \x27".data ++
        (v ++ "\x27)".data)))) =
      "(record.get(\x27".data ++ (f ++ ("\x7d, \x27".data ++
        (v ++ "\x27)".data))) := by
    rw [replaceRun_append_fire _ _ _ (by decide)]
    rw [replaceRun_no_sub _ _ _ hno1]
  have hno2 : hasSubChars "$\x7b".data
      ("(record.get(\x27".data ++ (f ++ ("\x7d, \x27".data ++
        (v ++ "\x27)".data)))) = false := by
    apply no_sub_of_char_notin _ (Char.ofNat 36) (by decide)
    intro hm
    rcases List.mem_append.mp hm with hm | hm
    · exact absurd hm (by decide)
    rcases List.mem_append.mp hm with hm | hm
    · exact hf36 hm
    rcases List.mem_append.mp hm with hm | hm
    · exact absurd hm (by decide)
    rcases List.mem_append.mp hm with hm | hm
    · exact hv36 hm
    · exact absurd hm (by decide)
  have hstep2 := replaceRun_no_sub "$\x7b".data "record.get(\x27".data _ hno2
  have hshape3 : "(record.get(\x27".data ++ (f ++ ("\x7d, \x27".data ++
      (v ++ "\x27)".data))) =
      ("(record.get(\x27".data ++ f) ++ "\x7d".data ++
        (", \x27".data ++ (v ++ "\x27)".data)) := by
    simp [List.append_assoc]
  have hno3b : hasSubChars "\x7d".data
      (", \x27".data ++ (v ++ "\x27)".data)) = false := by
    apply no_sub_of_char_notin _ (Char.ofNat 125) (by decide)
    intro hm
    rcases List.mem_append.mp hm with hm | hm
    · exact absurd hm (by decide)
    rcases List.mem_append.mp hm with hm | hm
    · exact hv125 hm
    · exact absurd hm (by decide)
  have hpa3 : Char.ofNat 125 ∉ ("(record.get(\x27".data ++ f) := by
    intro hm
    rcases List.mem_append.mp hm with hm | hm
    · exact absurd hm (by decide)
    · exact hf125 hm
  have hstep3 := replaceRun_single "\x7d".data "\x27)".data (Char.ofNat 125)
    [] ("(record.get(\x27".data ++ f)
    (", \x27".data ++ (v ++ "\x27)".data)) (by decide) hpa3 hno3b
  have hshape4 : ("(record.get(\x27".data ++ f) ++ "\x27)".data ++
      (", \x27".data ++ (v ++ "\x27)".data)) =
      (("(record.get(\x27".data ++ f) ++ "\x27)".data) ++ ", ".data ++
        ("\x27".data ++ (v ++ "\x27)".data)) := by
    simp [List.append_assoc]
  have hno4b : hasSubChars ", ".data
      ("\x27".data ++ (v ++ "\x27)".data)) = false := by
    apply no_sub_of_char_notin _ (Char.ofNat 44) (by decide)
    intro hm
    rcases List.mem_append.mp hm with hm | hm
    · exact absurd hm (by decide)
    rcases List.mem_append.mp hm with hm | hm
    · exact hv44 hm
    · exact absurd hm (by decide)
  have hpa4 : Char.ofNat 44 ∉
      (("(record.get(\x27".data ++ f) ++ "\x27)".data) := by
    intro hm
    rcases List.mem_append.mp hm with hm | hm
    · rcases List.mem_append.mp hm with hm | hm
      · exact absurd hm (by decide)
      · exact hf44 hm
    · exact absurd hm (by decide)
  have hstep4 := replaceRun_single ", ".data " == ".data (Char.ofNat 44)
    [Char.ofNat 32] (("(record.get(\x27".data ++ f) ++ "\x27)".data)
    ("\x27".data ++ (v ++ "\x27)".data)) (by decide) hpa4 hno4b
  have hsel : Field.parse_condition (String.mk ("selected($\x7b".data ++ f ++
      "\x7d, \x27".data ++ v ++ "\x27)".data)) =
      String.mk ("(record.get(\x27".data ++ f ++ "\x27) == \x27".data ++ v ++
        "\x27)".data) := by
    rw [parse_condition_eq]
    apply congrArg String.mk
    rw [show ("selected($\x7b".data ++ f ++ "\x7d, \x27".data ++ v ++
        "\x27)".data : List Char) =
      "selected($\x7b".data ++ (f ++ ("\x7d, \x27".data ++
        (v ++ "\x27)".data))) from by simp [List.append_assoc]]
    rw [hstep1, hstep2, hshape3, hstep3, hshape4, hstep4]
    simp [List.append_assoc]
  -- the bare-reference chain
  have hnoR1 : hasSubChars "selected($\x7b".data
      ("$\x7b".data ++ (f ++ "\x7d".data)) = false := by
    apply no_sub_of_char_notin _ (Char.ofNat 40) (by decide)
    intro hm
    rcases List.mem_append.mp hm with hm | hm
    · exact absurd hm (by decide)
    rcases List.mem_append.mp hm with hm | hm
    · exact hf40 hm
    · exact absurd hm (by decide)
  have hstepR1 := replaceRun_no_sub "selected($\x7b".data
    "(record.get(\x27".data _ hnoR1
  have hnoR2 : hasSubChars "$\x7b".data (f ++ "\x7d".data) = false := by
    apply no_sub_of_char_notin _ (Char.ofNat 36) (by decide)
    intro hm
    rcases List.mem_append.mp hm with hm | hm
    · exact hf36 hm
    · exact absurd hm (by decide)
  have hstepR2 : replaceRun "$\x7b".data "record.get(\x27".data
      ("$\x7b".data ++ (f ++ "\x7d".data)) =
      "record.get(\x27".data ++ (f ++ "\x7d".data) := by
    rw [replaceRun_append_fire _ _ _ (by decide)]
    rw [replaceRun_no_sub _ _ _ hnoR2]
  have hshapeR3 : "record.get(\x27".data ++ (f ++ "\x7d".data) =
      ("record.get(\x27".data ++ f) ++ "\x7d".data ++ ([] : List Char) := by
    simp [List.append_assoc]
  have hpaR3 : Char.ofNat 125 ∉ ("record.get(\x27".data ++ f) := by
    intro hm
    rcases List.mem_append.mp hm with hm | hm
    · exact absurd hm (by decide)
    · exact hf125 hm
  have hstepR3 := replaceRun_single "\x7d".data "\x27)".data (Char.ofNat 125)
    [] ("record.get(\x27".data ++ f) ([] : List Char) (by decide) hpaR3
    (by decide)
  have hnoR4 : hasSubChars ", ".data
      (("record.get(\x27".data ++ f) ++ "\x27)".data ++ ([] : List Char)) =
      false := by
    apply no_sub_of_char_notin _ (Char.ofNat 44) (by decide)
    intro hm
    rcases List.mem_append.mp hm with hm | hm
    · rcases List.mem_append.mp hm with hm | hm
      · rcases List.mem_append.mp hm with hm | hm
        · exact absurd hm (by decide)
        · exact hf44 hm
      · exact absurd hm (by decide)
    · exact absurd hm (by decide)
  have hstepR4 := replaceRun_no_sub ", ".data " == ".data _ hnoR4
  have href : Field.parse_condition (String.mk ("$\x7b".data ++ f ++
      "\x7d".data)) =
      String.mk ("record.get(\x27".data ++ f ++ "\x27)".data) := by
    rw [parse_condition_eq]
    apply congrArg String.mk
    rw [show ("$\x7b".data ++ f ++ "\x7d".data : List Char) =
      "$\x7b".data ++ (f ++ "\x7d".data) from by simp [List.append_assoc]]
    rw [hstepR1, hstepR2, hshapeR3, hstepR3, hstepR4]
    simp [List.append_assoc]
  -- evaluation of the generated strings
  have e1 : splitOnC (Char.ofNat 39) ((Char.ofNat 39) :: ")".data) =
      [] :: [")".data] := by decide
  have e2 : splitOnC (Char.ofNat 39)
      (v ++ ((Char.ofNat 39) :: ")".data)) = v :: [")".data] := by
    rw [splitOnC_append_notmem _ v _ [] [")".data] e1 hv39, List.append_nil]
  have e3 : splitOnC (Char.ofNat 39)
      ((Char.ofNat 39) :: (v ++ ((Char.ofNat 39) :: ")".data))) =
      [] :: v :: [")".data] := by
    rw [splitOnC_cons_sep, e2]
  have e4 : splitOnC (Char.ofNat 39)
      (") == ".data ++ ((Char.ofNat 39) :: (v ++ ((Char.ofNat 39) ::
        ")".data)))) = ") == ".data :: v :: [")".data] := by
    rw [splitOnC_append_notmem _ _ _ [] (v :: [")".data]) e3 (by decide),
      List.append_nil]
  have e5 : splitOnC (Char.ofNat 39)
      ((Char.ofNat 39) :: (") == ".data ++ ((Char.ofNat 39) ::
        (v ++ ((Char.ofNat 39) :: ")".data))))) =
      [] :: ") == ".data :: v :: [")".data] := by
    rw [splitOnC_cons_sep, e4]
  have e6 : splitOnC (Char.ofNat 39)
      (f ++ ((Char.ofNat 39) :: (") == ".data ++ ((Char.ofNat 39) ::
        (v ++ ((Char.ofNat 39) :: ")".data)))))) =
      f :: ") == ".data :: v :: [")".data] := by
    rw [splitOnC_append_notmem _ f _ []
      (") == ".data :: v :: [")".data]) e5 hf39, List.append_nil]
  have e7 : splitOnC (Char.ofNat 39)
      ((Char.ofNat 39) :: (f ++ ((Char.ofNat 39) :: (") == ".data ++
        ((Char.ofNat 39) :: (v ++ ((Char.ofNat 39) :: ")".data))))))) =
      [] :: f :: ") == ".data :: v :: [")".data] := by
    rw [splitOnC_cons_sep, e6]
  have e8 : splitOnC (Char.ofNat 39)
      ("(record.get(".data ++ ((Char.ofNat 39) :: (f ++ ((Char.ofNat 39) ::
        (") == ".data ++ ((Char.ofNat 39) :: (v ++ ((Char.ofNat 39) ::
          ")".data)))))))) =
      "(record.get(".data :: f :: ") == ".data :: v :: [")".data] := by
    rw [splitOnC_append_notmem _ _ _ []
      (f :: ") == ".data :: v :: [")".data]) e7 (by decide), List.append_nil]
  have hsplit5 : splitOnC (Char.ofNat 39)
      ("(record.get(\x27".data ++ f ++ "\x27) == \x27".data ++ v ++
        "\x27)".data) =
      ["(record.get(".data, f, ") == ".data, v, ")".data] := by
    rw [show ("(record.get(\x27".data ++ f ++ "\x27) == \x27".data ++ v ++
        "\x27)".data : List Char) =
      "(record.get(".data ++ ((Char.ofNat 39) :: (f ++ ((Char.ofNat 39) ::
        (") == ".data ++ ((Char.ofNat 39) :: (v ++ ((Char.ofNat 39) ::
          ")".data))))))) from by simp [List.append_assoc]]
    exact e8
  -- the bare-reference split
  have r1 : splitOnC (Char.ofNat 39)
      (f ++ ((Char.ofNat 39) :: ")".data)) = f :: [")".data] := by
    rw [splitOnC_append_notmem _ f _ [] [")".data] e1 hf39, List.append_nil]
  have r2 : splitOnC (Char.ofNat 39)
      ((Char.ofNat 39) :: (f ++ ((Char.ofNat 39) :: ")".data))) =
      [] :: f :: [")".data] := by
    rw [splitOnC_cons_sep, r1]
  have r3 : splitOnC (Char.ofNat 39)
      ("record.get(".data ++ ((Char.ofNat 39) :: (f ++ ((Char.ofNat 39) ::
        ")".data)))) = "record.get(".data :: f :: [")".data] := by
    rw [splitOnC_append_notmem _ _ _ [] (f :: [")".data]) r2 (by decide),
      List.append_nil]
  have hsplit3 : splitOnC (Char.ofNat 39)
      ("record.get(\x27".data ++ f ++ "\x27)".data) =
      ["record.get(".data, f, ")".data] := by
    rw [show ("record.get(\x27".data ++ f ++ "\x27)".data : List Char) =
      "record.get(".data ++ ((Char.ofNat 39) :: (f ++ ((Char.ofNat 39) ::
        ")".data))) from by simp [List.append_assoc]]
    exact r3
  refine ⟨hsel, href, ?_, ?_⟩
  · intro record
    rw [hsel]
    exact evalGenerated_of_split5
      (String.mk ("(record.get(\x27".data ++ f ++ "\x27) == \x27".data ++ v ++
        "\x27)".data)) record f v hsplit5
  · intro record
    rw [href]
    exact evalGenerated_of_split3
      (String.mk ("record.get(\x27".data ++ f ++ "\x27)".data)) record f
      hsplit3

/-- C3 witness: the parser on `selected(${fieldx}, (quote)yes(quote))`
and on `${fieldx}` produces the claimed strings, which evaluate as the
equality and truthiness tests; the closing concrete equation shows the
full string form. -/
theorem parse_condition_forms_witness :
    plainChars c3f = true ∧ plainChars c3v = true
    ∧ (Field.parse_condition (String.mk ("selected($\x7b".data ++ c3f ++
        "\x7d, \x27".data ++ c3v ++ "\x27)".data)) =
      String.mk ("(record.get(\x27".data ++ c3f ++ "\x27) == \x27".data ++
        c3v ++ "\x27)".data)
    ∧ Field.parse_condition (String.mk ("$\x7b".data ++ c3f ++
        "\x7d".data)) =
      String.mk ("record.get(\x27".data ++ c3f ++ "\x27)".data)
    ∧ (∀ record : String → Option String,
        evalGenerated (Field.parse_condition
          (String.mk ("selected($\x7b".data ++ c3f ++ "\x7d, \x27".data ++
            c3v ++ "\x27)".data))) record =
          some (record (String.mk c3f) == some (String.mk c3v)))
    ∧ (∀ record : String → Option String,
        evalGenerated (Field.parse_condition
          (String.mk ("$\x7b".data ++ c3f ++ "\x7d".data))) record =
          some (pyTruthyStr (record (String.mk c3f)))))
    ∧ Field.parse_condition "selected($\x7bfieldx\x7d, \x27yes\x27)" =
      "(record.get(\x27fieldx\x27) == \x27yes\x27)" :=
  ⟨by decide, by decide, parse_condition_forms c3f c3v (by decide) (by decide),
   by decide⟩

/-! ### Helper lemmas for `get_fields_metadata` -/

/-- Helper: the record loop of `get_fields_metadata` computes, in order,
one record per retained field. -/
theorem collectRecords_eq (fields : List Field) (recs : List Assoc)
    (h : collectRecords fields = some recs) :
    recs = fields.filterMap recordSpec := by
  induction fields generalizing recs with
  | nil =>
    cases h
    rfl
  | cons f fs ih =>
    rw [List.filterMap_cons]
    unfold collectRecords at h
    split at h
    case _ a hm =>
      by_cases ht : ((lookupA a "name").getD (Value.str "")).truthy = false
      · rw [if_pos ht] at h
        have hrn : retainedName f = Option.none := by
          unfold retainedName
          rw [hm]
          show (match (lookupA a "name").getD (Value.str "") with
            | Value.str s =>
              if (decide (s = "") || strStartsWith s "group") = true
              then Option.none else some s
            | _ => Option.none) = Option.none
          cases hv : (lookupA a "name").getD (Value.str "") with
          | str s =>
            rw [hv] at ht
            have hs : s = "" := by
              unfold Value.truthy at ht
              simpa using ht
            show (if (decide (s = "") || strStartsWith s "group") = true
              then Option.none else some s) = Option.none
            rw [hs]
            rfl
          | null => rfl
          | bool b => rfl
          | num q => rfl
          | list vs => rfl
          | obj o => rfl
        have hrs : recordSpec f = Option.none := by
          unfold recordSpec
          rw [hrn]
          rfl
        rw [hrs]
        exact ih recs h
      · rw [if_neg ht] at h
        split at h
        case _ s hv =>
          have hsne : s ≠ "" := by
            rw [hv] at ht
            intro hs
            apply ht
            rw [hs]
            rfl
          have hrnBase : retainedName f =
              (if (decide (s = "") || strStartsWith s "group") = true
               then Option.none else some s) := by
            unfold retainedName
            rw [hm]
            show (match (lookupA a "name").getD (Value.str "") with
              | Value.str s =>
                if (decide (s = "") || strStartsWith s "group") = true
                then Option.none else some s
              | _ => Option.none) = _
            rw [hv]
          by_cases hg : strStartsWith s "group" = true
          · rw [if_pos hg] at h
            have hrs : recordSpec f = Option.none := by
              unfold recordSpec
              rw [hrnBase, if_pos (by simp [hg])]
              rfl
            rw [hrs]
            exact ih recs h
          · rw [if_neg hg] at h
            have hgf : strStartsWith s "group" = false := by
              cases hgb : strStartsWith s "group"
              · rfl
              · exact absurd hgb hg
            split at h
            case _ lv rest hl hcr =>
              cases h
              have hrs : recordSpec f =
                  some [("name", Value.str s), ("label", lv),
                        ("type", (lookupA a "type").getD Value.null)] := by
                unfold recordSpec
                rw [hrnBase, if_neg (by simp [hsne, hgf])]
                rw [Option.map_some']
                rw [hm]
                show some [("name", Value.str s),
                  ("label", (labelOfMeta a).getD Value.null),
                  ("type", (lookupA a "type").getD Value.null)] = _
                rw [hl]
                rfl
              rw [hrs]
              rw [ih rest hcr]
            case _ =>
              exact Option.noConfusion h
        case _ =>
          exact Option.noConfusion h
    case _ =>
      exact Option.noConfusion h

/-- Helper: every retained-field record has exactly the keys `name`,
`label`, `type`, in that order. -/
theorem record_keys_shape (fields : List Field) :
    ∀ r ∈ fields.filterMap recordSpec,
      r.map Prod.fst = ["name", "label", "type"] := by
  intro r hr
  rw [List.mem_filterMap] at hr
  obtain ⟨f, hf, hrf⟩ := hr
  unfold recordSpec at hrf
  cases hrn : retainedName f with
  | none =>
    rw [hrn] at hrf
    exact Option.noConfusion hrf
  | some s =>
    rw [hrn] at hrf
    cases hm : f.meta with
    | obj a =>
      rw [hm] at hrf
      cases hrf
      rfl
    | null =>
      unfold retainedName at hrn
      rw [hm] at hrn
      exact Option.noConfusion hrn
    | bool b =>
      unfold retainedName at hrn
      rw [hm] at hrn
      exact Option.noConfusion hrn
    | num q =>
      unfold retainedName at hrn
      rw [hm] at hrn
      exact Option.noConfusion hrn
    | str s2 =>
      unfold retainedName at hrn
      rw [hm] at hrn
      exact Option.noConfusion hrn
    | list vs =>
      unfold retainedName at hrn
      rw [hm] at hrn
      exact Option.noConfusion hrn

/-- Helper: deduplication drops everything already seen. -/
theorem dedupFirst_all_seen (seen ks : List String)
    (h : ∀ k ∈ ks, k ∈ seen) : dedupFirst seen ks = [] := by
  induction ks generalizing seen with
  | nil => rfl
  | cons k ks ih =>
    unfold dedupFirst
    rw [if_pos (by simpa using h k (List.mem_cons_self k ks))]
    exact ih seen (fun x hx => h x (List.mem_cons_of_mem k hx))

/-- Helper: the column labels of a non-empty uniform record table. -/
theorem collectKeys_shape (recs : List Assoc) (hne : recs ≠ [])
    (hsh : ∀ r ∈ recs, r.map Prod.fst = ["name", "label", "type"]) :
    collectKeys recs = ["name", "label", "type"] := by
  cases recs with
  | nil => exact absurd rfl hne
  | cons r rs =>
    unfold collectKeys
    rw [List.flatMap_cons]
    rw [hsh r (List.mem_cons_self r rs)]
    show "name" :: "label" :: "type" ::
      dedupFirst ["type", "label", "name"]
        (rs.flatMap (fun r => r.map Prod.fst)) = _
    rw [dedupFirst_all_seen _ _ ?_]
    intro k hk
    rw [List.mem_flatMap] at hk
    obtain ⟨r2, hr2, hkr⟩ := hk
    rw [hsh r2 (List.mem_cons_of_mem r hr2)] at hkr
    simp only [List.mem_cons, List.mem_singleton, List.not_mem_nil,
      or_false] at hkr ⊢
    tauto

/-- C4 (amended): whenever at least one field is retained, the output of
`get_fields_metadata` has exactly the three columns `name`, `label`,
`type`, with one row per retained field in declaration order.  (With no
retained field, the counterexample shows the frame has no columns at
all.) -/
theorem get_fields_metadata_retained_shape (fields : List Field)
    (df : DataFrame) (h : get_fields_metadata fields = some df)
    (hne : fields.filterMap recordSpec ≠ []) :
    df = fieldsTable fields
    ∧ df.columns = ["name", "label", "type"]
    ∧ df.nrows = (fields.filterMap recordSpec).length := by
  unfold get_fields_metadata at h
  cases hcr : collectRecords fields with
  | none =>
    rw [hcr] at h
    exact Option.noConfusion h
  | some recs =>
    rw [hcr] at h
    cases h
    have heq : recs = fields.filterMap recordSpec :=
      collectRecords_eq fields recs hcr
    have hkeys : collectKeys recs = ["name", "label", "type"] := by
      apply collectKeys_shape
      · rw [heq]
        exact hne
      · intro r hr
        exact record_keys_shape fields r (heq ▸ hr)
    have hcols : mkFromRecords recs = fieldsTable fields := by
      unfold mkFromRecords fieldsTable
      rw [hkeys, heq]
      rfl
    refine ⟨hcols, ?_, ?_⟩
    · rw [hcols]
      rfl
    · rw [hcols]
      show ((fields.filterMap recordSpec).map
        (fun r => (lookupA r "name").getD Value.null)).length =
        (fields.filterMap recordSpec).length
      exact List.length_map _ _

/-- C4 witness: a survey with one retained question, a group marker and
a nameless field yields a one-row three-column table. -/
theorem get_fields_metadata_retained_shape_witness :
    get_fields_metadata c4Fields = some (fieldsTable c4Fields)
    ∧ c4Fields.filterMap recordSpec ≠ []
    ∧ (fieldsTable c4Fields = fieldsTable c4Fields
      ∧ (fieldsTable c4Fields).columns = ["name", "label", "type"]
      ∧ (fieldsTable c4Fields).nrows = (c4Fields.filterMap recordSpec).length)
    ∧ fieldsTable c4Fields =
      { cols := [("name", [Value.str "q1"]), ("label", [Value.str "Q1"]),
                 ("type", [Value.str "text"])] } := by
  have hne : c4Fields.filterMap recordSpec ≠ [] := by
    intro hh
    rw [show c4Fields.filterMap recordSpec =
      [[("name", Value.str "q1"), ("label", Value.str "Q1"),
        ("type", Value.str "text")]] from rfl] at hh
    exact List.noConfusion hh
  exact ⟨rfl, hne,
    get_fields_metadata_retained_shape c4Fields (fieldsTable c4Fields) rfl hne,
    rfl⟩

/-- C5 (amended): the selection stage of `get_survey_data` on
collision-free input: every raw key containing `"group"` is renamed to
its last `/`-segment, the selected columns are exactly the simplified
group-column names followed by the three fixed system columns, in that
order, and every other raw column is dropped.  (On a collision nothing is
overwritten: the counterexample shows every matching column is kept, once
per occurrence of the label in the selection list.) -/
theorem koboSelect_columns_spec (raw : DataFrame)
    (hnd : (applyRename raw.columns).Nodup)
    (hs1 : "_status" ∈ raw.columns) (hs2 : "_geolocation" ∈ raw.columns)
    (hs3 : "_attachments" ∈ raw.columns) :
    koboSelect raw = some (selectedFrame raw)
    ∧ (selectedFrame raw).columns =
        (raw.columns.filter (fun c => strContains c "group")).map simplifyColumn
        ++ ["_status", "_geolocation", "_attachments"]
    ∧ (∀ c ∈ raw.columns, strContains c "group" = false →
        c ≠ "_status" → c ≠ "_geolocation" → c ≠ "_attachments" →
        c ∉ (selectedFrame raw).columns) := by
  have hnd2 : (koboRename raw).columns.Nodup := by
    rw [koboRename_columns]; exact hnd
  have h1 : koboSelect raw = some (selectedFrame raw) :=
    selectColumns_nodup (koboRename raw) (selectionKey raw.columns) hnd2
      (selectionKey_mem raw hs1 hs2 hs3)
  have hcols : (selectedFrame raw).columns = selectionKey raw.columns := by
    unfold selectedFrame DataFrame.columns
    rw [List.map_map]
    exact List.map_id _
  refine ⟨h1, ?_, ?_⟩
  · rw [hcols]; rfl
  · intro c hc hg hne1 hne2 hne3 hmem
    rw [hcols] at hmem
    unfold selectionKey at hmem
    rw [List.mem_append] at hmem
    cases hmem with
    | inr h =>
      simp only [List.mem_cons, List.mem_singleton, List.not_mem_nil,
        or_false] at h
      rcases h with h | h | h
      exacts [hne1 h, hne2 h, hne3 h]
    | inl h =>
      unfold groupSimplified at h
      rw [List.mem_map] at h
      obtain ⟨c2, hc2, hsim⟩ := h
      have hcf := List.mem_filter.mp hc2
      have hnd3 : (raw.columns.map renameCol).Nodup := hnd
      have hinj := List.inj_on_of_nodup_map hnd3
      have hrc : renameCol c = c := renameCol_fix c hg
      have hrc2 : renameCol c2 = simplifyColumn c2 := by
        unfold renameCol
        rw [hcf.2]
        simp
      have hceq : c = c2 := hinj hc hcf.1 (by rw [hrc, hrc2, hsim])
      have hgc2 := hcf.2
      rw [← hceq, hg] at hgc2
      exact Bool.noConfusion hgc2

/-- C5 witness: on `selDf0` (one group column, one plain raw column, the
three system columns, no collision) the selection keeps exactly the
simplified group column `a` plus the system columns and drops `other`. -/
theorem koboSelect_columns_spec_witness :
    (applyRename selDf0.columns).Nodup
    ∧ ("_status" ∈ selDf0.columns ∧ "_geolocation" ∈ selDf0.columns
      ∧ "_attachments" ∈ selDf0.columns)
    ∧ (koboSelect selDf0 = some (selectedFrame selDf0)
      ∧ (selectedFrame selDf0).columns =
          (selDf0.columns.filter (fun c => strContains c "group")).map
            simplifyColumn ++ ["_status", "_geolocation", "_attachments"]
      ∧ (∀ c ∈ selDf0.columns, strContains c "group" = false →
          c ≠ "_status" → c ≠ "_geolocation" → c ≠ "_attachments" →
          c ∉ (selectedFrame selDf0).columns))
    ∧ koboSelect selDf0 =
      some { cols := [("a", [Value.str "v1"]), ("_status", [Value.str "ok"]),
        ("_geolocation", [Value.list [Value.num 5, Value.num (-3)]]),
        ("_attachments", [Value.null])] } :=
  ⟨by decide, ⟨by decide, by decide, by decide⟩,
   koboSelect_columns_spec selDf0 (by decide) (by decide) (by decide)
     (by decide), rfl⟩

/-- C6: through the whole of `get_survey_data`: per row, `LATITUDE` and
`LONGITUDE` are `_lat`/`_lon` of the raw `_geolocation` value (first and
second element of a two-element list, `None` when the value is absent or
not a two-element list), and the `_geolocation`/`_attachments` columns
are gone from the output. -/
theorem get_survey_data_geolocation_spec (raw : DataFrame) (g : List Value)
    (hnd : (applyRename raw.columns).Nodup)
    (hs1 : "_status" ∈ raw.columns) (hs3 : "_attachments" ∈ raw.columns)
    (hgeo : raw.col? "_geolocation" = some g) :
    ∃ out, get_survey_data_df raw = some out
      ∧ out.col? "LATITUDE" = some (g.map latOf)
      ∧ out.col? "LONGITUDE" = some (g.map lonOf)
      ∧ "_geolocation" ∉ out.columns
      ∧ "_attachments" ∉ out.columns
      ∧ (∀ a b : Value, latOf (Value.list [a, b]) = a
          ∧ lonOf (Value.list [a, b]) = b)
      ∧ (∀ v : Value, (∀ a b : Value, v ≠ Value.list [a, b]) →
          latOf v = Value.null ∧ lonOf v = Value.null) := by
  have hs2 : "_geolocation" ∈ raw.columns := by
    unfold DataFrame.col? at hgeo
    cases hf : raw.cols.find? (fun c => c.1 == "_geolocation") with
    | none => rw [hf] at hgeo; simp at hgeo
    | some pr =>
      have hm := List.mem_of_find?_eq_some hf
      have hp := List.find?_some hf
      unfold DataFrame.columns
      rw [List.mem_map]
      exact ⟨pr, hm, by simpa using hp⟩
  have hnd2 : (koboRename raw).columns.Nodup := by
    rw [koboRename_columns]; exact hnd
  have h1 : koboSelect raw = some (selectedFrame raw) :=
    selectColumns_nodup (koboRename raw) (selectionKey raw.columns) hnd2
      (selectionKey_mem raw hs1 hs2 hs3)
  have hnd4 : ((raw.cols.map Prod.fst).map renameCol).Nodup := hnd
  have hrg : (koboRename raw).col? "_geolocation" = some g := by
    show ((raw.cols.map (fun c => (renameCol c.1, c.2))).find?
      (fun c => c.1 == "_geolocation")).map Prod.snd = some g
    exact find?_rename_fix raw.cols "_geolocation" g rfl hnd4 hgeo
  have hqmem : "_geolocation" ∈ selectionKey raw.columns := by
    unfold selectionKey
    rw [List.mem_append]
    right
    simp
  have hsel : (selectedFrame raw).col? "_geolocation" = some g := by
    show (((selectionKey raw.columns).map
      (fun k => (k, ((koboRename raw).col? k).getD []))).find?
      (fun c => c.1 == "_geolocation")).map Prod.snd = some g
    rw [find?_map_pair (selectionKey raw.columns)
      (fun k => (((koboRename raw).col? k).getD [])) "_geolocation" hqmem]
    rw [hrg]
    rfl
  have hout : get_survey_data_df raw =
      some (dropColumns
        (assignColumn (assignColumn (selectedFrame raw) "LATITUDE"
          (g.map latOf)) "LONGITUDE" (g.map lonOf))
        ["_geolocation", "_attachments"]) := by
    unfold get_survey_data_df
    rw [h1]
    show geoStage (selectedFrame raw) = _
    unfold geoStage
    rw [hsel]
  refine ⟨_, hout, ?_, ?_, ?_, ?_, ?_, ?_⟩
  · rw [drop_col?_keep _ _ _ (by rfl)]
    rw [assign_col?_other _ _ _ _ (by decide)]
    exact assign_col?_self _ _ _
  · rw [drop_col?_keep _ _ _ (by rfl)]
    exact assign_col?_self _ _ _
  · exact drop_not_mem_columns _ _ _ (by rfl)
  · exact drop_not_mem_columns _ _ _ (by rfl)
  · intro a b
    exact ⟨rfl, rfl⟩
  · intro v hv
    cases v with
    | null => exact ⟨rfl, rfl⟩
    | bool b => exact ⟨rfl, rfl⟩
    | num q => exact ⟨rfl, rfl⟩
    | str s => exact ⟨rfl, rfl⟩
    | obj fs => exact ⟨rfl, rfl⟩
    | list vs =>
      cases vs with
      | nil => exact ⟨rfl, rfl⟩
      | cons a t =>
        cases t with
        | nil => exact ⟨rfl, rfl⟩
        | cons b t2 =>
          cases t2 with
          | nil => exact absurd rfl (hv a b)
          | cons x t3 => exact ⟨rfl, rfl⟩

/-- C6 witness: on `selDf0` (raw `_geolocation` value `[5, -3]`) the
output carries `LATITUDE = 5` and `LONGITUDE = -3` and has neither
`_geolocation` nor `_attachments`. -/
theorem get_survey_data_geolocation_spec_witness :
    (applyRename selDf0.columns).Nodup
    ∧ ("_status" ∈ selDf0.columns ∧ "_attachments" ∈ selDf0.columns)
    ∧ selDf0.col? "_geolocation" = some selGeo0
    ∧ (∃ out, get_survey_data_df selDf0 = some out
      ∧ out.col? "LATITUDE" = some (selGeo0.map latOf)
      ∧ out.col? "LONGITUDE" = some (selGeo0.map lonOf)
      ∧ "_geolocation" ∉ out.columns
      ∧ "_attachments" ∉ out.columns
      ∧ (∀ a b : Value, latOf (Value.list [a, b]) = a
          ∧ lonOf (Value.list [a, b]) = b)
      ∧ (∀ v : Value, (∀ a b : Value, v ≠ Value.list [a, b]) →
          latOf v = Value.null ∧ lonOf v = Value.null))
    ∧ get_survey_data_df selDf0 =
      some { cols := [("a", [Value.str "v1"]), ("_status", [Value.str "ok"]),
        ("LATITUDE", [Value.num 5]), ("LONGITUDE", [Value.num (-3)])] } :=
  ⟨by decide, ⟨by decide, by decide⟩, rfl,
   get_survey_data_geolocation_spec selDf0 selGeo0 (by decide) (by decide)
     (by decide) rfl, rfl⟩

/-! ### Helper lemmas for `parse_choices` -/

/-- Helper: the dict-key comparison succeeds exactly on equal hashable
values. -/
theorem eqTest_true_iff (a b : Value) :
    Value.eqTest a b = true ↔ a = b ∧ a.isHashable = true := by
  cases a <;> cases b <;> simp [Value.eqTest, Value.isHashable]

/-- Helper: an unbound key is not found. -/
theorem contains_false_find_none (m : ChoiceLists) (ln : Value)
    (h : containsKeyV m ln = false) :
    m.find? (fun g => Value.eqTest g.1 ln) = Option.none := by
  rw [List.find?_eq_none]
  intro g hg
  exact (List.any_eq_false.mp h) g hg

/-- Helper: appending a record to its existing group. -/
theorem getGroupD_update_self (ln : Value) (c : Assoc) :
    ∀ m : ChoiceLists, containsKeyV m ln = true →
      getGroupD (m.map (fun g =>
        if Value.eqTest g.1 ln then (g.1, g.2 ++ [c]) else g)) ln =
      getGroupD m ln ++ [c] := by
  intro m
  induction m with
  | nil =>
    intro hcont
    simp [containsKeyV] at hcont
  | cons g m ih =>
    intro hcont
    unfold getGroupD getGroup
    rw [List.map_cons]
    cases he : Value.eqTest g.1 ln with
    | true =>
      rw [List.find?_cons_of_pos _ (by simp [he]),
        List.find?_cons_of_pos _ (by simp [he])]
      rfl
    | false =>
      have hcont2 : containsKeyV m ln = true := by
        unfold containsKeyV at hcont ⊢
        rw [List.any_cons, he] at hcont
        simpa using hcont
      rw [List.find?_cons_of_neg _ (by simp [he]),
        List.find?_cons_of_neg _ (by simp [he])]
      exact ih hcont2

/-- Helper: appending a record to a group leaves other groups alone. -/
theorem getGroupD_update_other (ln q : Value) (c : Assoc) (hne : ln ≠ q) :
    ∀ m : ChoiceLists,
      getGroupD (m.map (fun g =>
        if Value.eqTest g.1 ln then (g.1, g.2 ++ [c]) else g)) q =
      getGroupD m q := by
  intro m
  induction m with
  | nil => rfl
  | cons g m ih =>
    unfold getGroupD getGroup
    rw [List.map_cons]
    cases he : Value.eqTest g.1 ln with
    | true =>
      have hg1 : g.1 = ln := ((eqTest_true_iff g.1 ln).mp he).1
      have hq : Value.eqTest g.1 q = false := by
        cases hqt : Value.eqTest g.1 q with
        | false => rfl
        | true =>
          exact absurd (hg1 ▸ ((eqTest_true_iff g.1 q).mp hqt).1) hne
      rw [List.find?_cons_of_neg _ (by simp [hq]),
        List.find?_cons_of_neg _ (by simp [hq])]
      exact ih
    | false =>
      cases hq : Value.eqTest g.1 q with
      | true =>
        rw [List.find?_cons_of_pos _ (by simp [hq]),
          List.find?_cons_of_pos _ (by simp [hq])]
        rfl
      | false =>
        rw [List.find?_cons_of_neg _ (by simp [hq]),
          List.find?_cons_of_neg _ (by simp [hq])]
        exact ih

/-- Helper: opening a new group for a fresh key. -/
theorem getGroupD_append_self (m : ChoiceLists) (ln : Value) (c : Assoc)
    (hcont : containsKeyV m ln = false) (hh : ln.isHashable = true) :
    getGroupD (m ++ [(ln, [c])]) ln = getGroupD m ln ++ [c] := by
  unfold getGroupD getGroup
  rw [List.find?_append, contains_false_find_none m ln hcont, Option.none_or]
  rw [List.find?_cons_of_pos _
    (by simp [(eqTest_true_iff ln ln).mpr ⟨rfl, hh⟩])]
  rfl

/-- Helper: opening a new group leaves other groups alone. -/
theorem getGroupD_append_other (m : ChoiceLists) (ln q : Value) (c : Assoc)
    (hne : ln ≠ q) :
    getGroupD (m ++ [(ln, [c])]) q = getGroupD m q := by
  unfold getGroupD getGroup
  rw [List.find?_append]
  have h2 : [((ln, [c]) : Value × List Assoc)].find?
      (fun g => Value.eqTest g.1 q) = Option.none := by
    rw [List.find?_eq_none]
    intro x hx
    rcases List.mem_singleton.mp hx with rfl
    intro hxt
    exact hne ((eqTest_true_iff ln q).mp hxt).1
  rw [h2, Option.or_none]

/-- Helper: one loop iteration of `parse_choices` adds exactly the head
contribution to each group. -/
theorem getGroupD_addChoice (m : ChoiceLists) (c : Assoc) (m2 : ChoiceLists)
    (h : addChoice m c = some m2) (q : Value) :
    getGroupD m2 q = getGroupD m q ++ headContribution c q := by
  unfold addChoice at h
  unfold headContribution
  cases hln : lookupA c "list_name" with
  | none =>
    rw [hln] at h
    replace h : some m = some m2 := h
    cases h
    show getGroupD m q = getGroupD m q ++ ([] : List Assoc)
    rw [List.append_nil]
  | some ln =>
    rw [hln] at h
    replace h : (if ln.isHashable = true then
        some (if containsKeyV m ln = true then
            m.map (fun g =>
              if Value.eqTest g.1 ln then (g.1, g.2 ++ [c]) else g)
          else m ++ [(ln, [c])])
      else Option.none) = some m2 := h
    by_cases hh : ln.isHashable = true
    · rw [if_pos hh] at h
      cases h
      show getGroupD (if containsKeyV m ln = true then
          m.map (fun g =>
            if Value.eqTest g.1 ln then (g.1, g.2 ++ [c]) else g)
        else m ++ [(ln, [c])]) q =
        getGroupD m q ++ (if Value.eqTest ln q = true then [c] else [])
      by_cases heq : Value.eqTest ln q = true
      · have hlq : ln = q := ((eqTest_true_iff ln q).mp heq).1
        rw [if_pos heq]
        subst hlq
        by_cases hcont : containsKeyV m ln = true
        · rw [if_pos hcont]
          exact getGroupD_update_self ln c m hcont
        · rw [if_neg hcont]
          refine getGroupD_append_self m ln c ?_ hh
          cases hcv : containsKeyV m ln with
          | false => rfl
          | true => exact absurd hcv hcont
      · have hlq : ln ≠ q := fun hh2 => heq ((eqTest_true_iff ln q).mpr
          ⟨hh2, hh⟩)
        rw [if_neg heq]
        by_cases hcont : containsKeyV m ln = true
        · rw [if_pos hcont, getGroupD_update_other ln q c hlq m,
            List.append_nil]
        · rw [if_neg hcont, getGroupD_append_other m ln q c hlq,
            List.append_nil]
    · rw [if_neg hh] at h
      exact Option.noConfusion h

/-- Helper: over the whole loop, each group receives exactly the ordered
records carrying its list name. -/
theorem choicesFold_getGroupD (cs : List Value) :
    ∀ m m2, choicesFold m cs = some m2 → ∀ q,
      getGroupD m2 q = getGroupD m q ++ specFilter q cs := by
  induction cs with
  | nil =>
    intro m m2 h q
    cases h
    show getGroupD m q = getGroupD m q ++ ([] : List Assoc)
    rw [List.append_nil]
  | cons c rest ih =>
    intro m m2 h q
    cases c with
    | obj a =>
      unfold choicesFold at h
      cases haddc : addChoice m a with
      | none =>
        rw [haddc] at h
        exact Option.noConfusion h
      | some m3 =>
        rw [haddc] at h
        rw [ih m3 m2 h q, getGroupD_addChoice m a m3 haddc q]
        show (getGroupD m q ++ headContribution a q) ++ specFilter q rest =
          getGroupD m q ++ (headContribution a q ++ specFilter q rest)
        rw [List.append_assoc]
    | null => exact Option.noConfusion h
    | bool b => exact Option.noConfusion h
    | num n => exact Option.noConfusion h
    | str s => exact Option.noConfusion h
    | list vs => exact Option.noConfusion h

/-- Helper: one loop iteration preserves the every-record-has-a-list-name
invariant. -/
theorem addChoice_preserves (m : ChoiceLists) (c : Assoc) (m2 : ChoiceLists)
    (h : addChoice m c = some m2)
    (hm : ∀ g ∈ m, ∀ r ∈ g.2, hasKeyA r "list_name" = true) :
    ∀ g ∈ m2, ∀ r ∈ g.2, hasKeyA r "list_name" = true := by
  unfold addChoice at h
  cases hln : lookupA c "list_name" with
  | none =>
    rw [hln] at h
    replace h : some m = some m2 := h
    cases h
    exact hm
  | some ln =>
    rw [hln] at h
    replace h : (if ln.isHashable = true then
        some (if containsKeyV m ln = true then
            m.map (fun g =>
              if Value.eqTest g.1 ln then (g.1, g.2 ++ [c]) else g)
          else m ++ [(ln, [c])])
      else Option.none) = some m2 := h
    by_cases hh : ln.isHashable = true
    · rw [if_pos hh] at h
      cases h
      have hc : hasKeyA c "list_name" = true := by
        unfold hasKeyA
        rw [hln]
        rfl
      by_cases hcont : containsKeyV m ln = true
      · rw [if_pos hcont]
        intro g hg r hr
        rw [List.mem_map] at hg
        obtain ⟨g0, hg0, rfl⟩ := hg
        by_cases hgt : Value.eqTest g0.1 ln = true
        · rw [if_pos hgt] at hr
          rcases List.mem_append.mp hr with hr | hr
          · exact hm g0 hg0 r hr
          · rcases List.mem_singleton.mp hr with rfl
            exact hc
        · rw [if_neg hgt] at hr
          exact hm g0 hg0 r hr
      · rw [if_neg hcont]
        intro g hg r hr
        rcases List.mem_append.mp hg with hg | hg
        · exact hm g hg r hr
        · rcases List.mem_singleton.mp hg with rfl
          rcases List.mem_singleton.mp hr with rfl
          exact hc
    · rw [if_neg hh] at h
      exact Option.noConfusion h

/-- Helper: the loop only ever stores records that carry `list_name`. -/
theorem choicesFold_groups_have_listname (cs : List Value) :
    ∀ m m2, choicesFold m cs = some m2 →
      (∀ g ∈ m, ∀ r ∈ g.2, hasKeyA r "list_name" = true) →
      ∀ g ∈ m2, ∀ r ∈ g.2, hasKeyA r "list_name" = true := by
  induction cs with
  | nil =>
    intro m m2 h hm
    cases h
    exact hm
  | cons c rest ih =>
    intro m m2 h hm
    cases c with
    | obj a =>
      unfold choicesFold at h
      cases haddc : addChoice m a with
      | none =>
        rw [haddc] at h
        exact Option.noConfusion h
      | some m3 =>
        rw [haddc] at h
        exact ih m3 m2 h (addChoice_preserves m a m3 haddc hm)
    | null => exact Option.noConfusion h
    | bool b => exact Option.noConfusion h
    | num n => exact Option.noConfusion h
    | str s => exact Option.noConfusion h
    | list vs => exact Option.noConfusion h

/-- C10: `parse_choices` returns Python `None` (not an empty mapping)
exactly when the content has no `"choices"` key; otherwise, whenever the
loop completes, it returns the dict grouping the choice records by their
`list_name` value, each group holding, in their original order, exactly
the records carrying that list name, and no stored record lacks the
`list_name` key (records without it are silently skipped). -/
theorem parse_choices_spec :
    (∀ content : Assoc, lookupA content "choices" = Option.none →
      parse_choicesOf content = some Option.none)
    ∧ (some Option.none : Option (Option ChoiceLists)) ≠
        some (some ([] : ChoiceLists))
    ∧ (∀ (content : Assoc) (cs : List Value) (m : ChoiceLists),
        lookupA content "choices" = some (Value.list cs) →
        choicesFold [] cs = some m →
        parse_choicesOf content = some (some m)
        ∧ (∀ q, getGroupD m q = specFilter q cs)
        ∧ (∀ g ∈ m, ∀ r ∈ g.2, hasKeyA r "list_name" = true)) := by
  refine ⟨?_, by simp, ?_⟩
  · intro content hc
    unfold parse_choicesOf
    rw [hc]
  · intro content cs m hc hfold
    refine ⟨?_, ?_, ?_⟩
    · unfold parse_choicesOf
      rw [hc]
      show (choicesFold [] cs).map some = some (some m)
      rw [hfold]
      rfl
    · intro q
      have h := choicesFold_getGroupD cs [] m hfold q
      rw [h]
      rfl
    · exact choicesFold_groups_have_listname cs [] m hfold
        (by intro g hg; simp at hg)

/-- C10 witness: on four concrete choice records the parser groups the
two `l1` records (in order) and the `l2` record, skips the record
without `list_name`, and a content without a `"choices"` key yields
Python `None`. -/
theorem parse_choices_spec_witness :
    lookupA c10content "choices" = some (Value.list c10cs)
    ∧ choicesFold [] c10cs = some c10m
    ∧ (parse_choicesOf c10content = some (some c10m)
      ∧ (∀ q, getGroupD c10m q = specFilter q c10cs)
      ∧ (∀ g ∈ c10m, ∀ r ∈ g.2, hasKeyA r "list_name" = true))
    ∧ parse_choicesOf [("survey", Value.list [])] = some Option.none :=
  ⟨rfl, rfl, parse_choices_spec.2.2 c10content c10cs c10m rfl rfl,
   parse_choices_spec.1 [("survey", Value.list [])] rfl⟩

/-- C9: a freshly constructed `Survey` has the `fields` attribute, and
likewise the `choices` attribute, exactly when the raw metadata carries a
`"content"` key; a metadata-only survey has neither attribute.  (In the
embedding the objects are immutable by construction, matching the source,
which never assigns to a `Survey` or `Field` after `__init__`.) -/
theorem survey_fields_iff_content (meta : Assoc) (s : Survey)
    (h : Survey.make meta = some s) :
    s.fields.isSome = hasKeyA meta "content"
    ∧ s.choices.isSome = hasKeyA meta "content" := by
  unfold Survey.make at h
  unfold hasKeyA
  split at h
  · cases h
    rename_i heq
    rw [heq]
    simp
  · rename_i content heq
    split at h
    · cases h
      rw [heq]
      simp
    · exact Option.noConfusion h
  · exact Option.noConfusion h

/-- C9 witness: a survey metadata with a `"content"` key (and no choice
lists) constructs with both attributes present; note `choices` is present
even though `parse_choices` returned Python `None`. -/
theorem survey_fields_iff_content_witness :
    Survey.make wSurveyMeta =
      some { meta := wSurveyMeta, fields := some [], choices := some Option.none }
    ∧ ((some [] : Option (List Field)).isSome = hasKeyA wSurveyMeta "content"
      ∧ (some Option.none : Option (Option ChoiceLists)).isSome =
        hasKeyA wSurveyMeta "content") :=
  ⟨rfl, survey_fields_iff_content wSurveyMeta
    { meta := wSurveyMeta, fields := some [], choices := some Option.none } rfl⟩

/-- C7: `get_survey_geodata` returns the input table plus a geometry
column with CRS fixed to `EPSG:4326`; per row the geometry is the point
`(LONGITUDE, LATITUDE)` exactly when both coordinates are truthy and the
null geometry otherwise; in particular a literal 0 coordinate yields a
null geometry. -/
theorem get_survey_geodata_spec (df : DataFrame) (lats lons : List Value)
    (hla : df.col? "LATITUDE" = some lats)
    (hlo : df.col? "LONGITUDE" = some lons) :
    ∃ g, get_survey_geodata df = some g ∧ g.df = df ∧ g.crs = "EPSG:4326"
    ∧ ∀ i, i < lats.length → i < lons.length →
        ((g.geometry.getD i Option.none =
            some (lons.getD i Value.null, lats.getD i Value.null)
          ↔ ((lats.getD i Value.null).truthy = true
             ∧ (lons.getD i Value.null).truthy = true))
        ∧ (((lats.getD i Value.null).truthy = false
            ∨ (lons.getD i Value.null).truthy = false) →
            g.geometry.getD i Option.none = Option.none)
        ∧ (lats.getD i Value.null = Value.num 0 →
            g.geometry.getD i Option.none = Option.none)) := by
  refine ⟨{ df := df, geometry := pointGeoms lats lons, crs := "EPSG:4326" },
    ?_, rfl, rfl, ?_⟩
  · unfold get_survey_geodata
    rw [hla, hlo]
  · intro i hi hj
    have hlen : i < (pointGeoms lats lons).length := by
      simpa [pointGeoms] using lt_min hi hj
    have hgeom : (pointGeoms lats lons).getD i Option.none =
        if (lats.getD i Value.null).truthy && (lons.getD i Value.null).truthy
        then some (lons.getD i Value.null, lats.getD i Value.null)
        else Option.none := by
      rw [List.getD_eq_getElem?_getD, List.getElem?_eq_getElem hlen]
      rw [List.getD_eq_getElem?_getD, List.getElem?_eq_getElem hi]
      rw [List.getD_eq_getElem?_getD, List.getElem?_eq_getElem hj]
      simp [pointGeoms]
    refine ⟨?_, ?_, ?_⟩
    · rw [hgeom]
      cases h1 : (lats.getD i Value.null).truthy <;>
        cases h2 : (lons.getD i Value.null).truthy <;> simp
    · intro h
      rw [hgeom]
      rcases h with h | h <;> rw [h] <;> simp
    · intro h
      rw [hgeom, h]
      simp [Value.truthy]

/-- C7 witness: the frame `geoDf0` (rows `(12, -3/2)`, `(0, 7)`,
`(null, 7)`) satisfies the hypotheses of the theorem and hence its
conclusion: the first row gets the point `(-3/2, 12)`, the zero-latitude
and null-latitude rows get null geometries. -/
theorem get_survey_geodata_spec_witness :
    DataFrame.col? geoDf0 "LATITUDE" = some geoLats0
    ∧ DataFrame.col? geoDf0 "LONGITUDE" = some geoLons0
    ∧ (∃ g, get_survey_geodata geoDf0 = some g ∧ g.df = geoDf0
        ∧ g.crs = "EPSG:4326"
        ∧ ∀ i, i < geoLats0.length → i < geoLons0.length →
          ((g.geometry.getD i Option.none =
              some (geoLons0.getD i Value.null, geoLats0.getD i Value.null)
            ↔ ((geoLats0.getD i Value.null).truthy = true
               ∧ (geoLons0.getD i Value.null).truthy = true))
          ∧ (((geoLats0.getD i Value.null).truthy = false
              ∨ (geoLons0.getD i Value.null).truthy = false) →
              g.geometry.getD i Option.none = Option.none)
          ∧ (geoLats0.getD i Value.null = Value.num 0 →
              g.geometry.getD i Option.none = Option.none)))
    ∧ get_survey_geodata geoDf0 =
      some { df := geoDf0,
             geometry := [some (Value.num (Rat.divInt (-3) 2), Value.num 12),
                          Option.none, Option.none],
             crs := "EPSG:4326" } :=
  ⟨rfl, rfl, get_survey_geodata_spec geoDf0 geoLats0 geoLons0 rfl rfl, by rfl⟩

end Kobo
